import Mathlib

/-!
Shallow embedding of the netvis graph-construction engine: the pairwise
network generator (src/app/algorithms/NetworkGenerator.js), its bipartite
variant, the defaults configuration modules, and the per-tick boundary clamp
of ForceDirectedGraph.js, together with theorems settling claims C1..C10.

Modelling conventions:
JS numbers are rationals here; JS division is `jsDiv`, which returns `none`
where JS produces a non-finite value (division by zero).  JS strings are Lean
`String`s, JS arrays are `List`s, and a JS `Map` is an association list
updated in place so that insertion order is preserved, exactly as `Map`
iteration order is specified in JS.  `Array.sort` (a stable sort per the
ECMAScript spec) is modelled by a stable insertion sort over the same
comparator.  `Math.log` is transcendental, so functions computing visual node
sizes take an uninterpreted `log : ℚ → ℚ` parameter; no claim depends on its
value.  Opaque string identifiers (profile ids) are modelled as `Nat`.
-/

namespace NetVis

/-- End date of an education record: an optional year and month name, as read
by `getMostRecentEducation` (`endDate.year`, `endDate.month`). -/
structure EndDate where
  year : Option Nat
  month : Option String
deriving Repr, DecidableEq

/-- One education record, reduced to the fields the generator reads:
`schoolId`, the raw `school` name and the `endDate`.  `none` models a missing
(or empty, hence falsy) field. -/
structure Edu where
  schoolId : Option String
  school : Option String
  endDate : Option EndDate
deriving Repr, DecidableEq

/-- One employer entry of `person.companies` (PersonClass.extractCompanies):
the raw display `name` and the `normalizedName` key.  The extractor stores at
most one entry per normalized name. -/
structure Company where
  name : Option String
  normalizedName : String
deriving Repr, DecidableEq

/-- Normalized location (PersonClass.extractLocation). -/
structure Loc where
  city : Option String
  country : Option String
  full : Option String
deriving Repr, DecidableEq

/-- An entity of the population.  `id` is the unique profile identifier (an
opaque string in the source, an opaque `Nat` here). -/
structure Person where
  id : Nat
  name : String
  firstName : Option String
  education : List Edu
  companies : List Company
  skills : List String
  location : Option Loc
deriving Repr, DecidableEq

/-- JS division, `none` standing for the non-finite result (NaN or an
infinity) that JS produces when the denominator is `0`. -/
def jsDiv (a b : ℚ) : Option ℚ := if b = 0 then none else some (a / b)

/-- Character step of the normalization `toLowerCase().replace(/[^a-z0-9]/g, f)`:
keep a lower-case ASCII letter or digit, replace anything else by `f`. -/
def normChar (f : Char) (c : Char) : Char :=
  if ('a' ≤ c ∧ c ≤ 'z') ∨ ('0' ≤ c ∧ c ≤ '9') then c else f

/-- Lower-case a string and replace every character outside `[a-z0-9]` by `f`
(ASCII lowering; the source applies JS `toLowerCase`). -/
def normalizeWith (f : Char) (s : String) : String :=
  (s.toLower.map (normChar f))

/-- NetworkGenerator.getPersonEducationSchools: one key per education record —
the school id when present, otherwise the deterministic fallback key
`name_` followed by the normalized school name, otherwise the sentinel
`"unknown"`.  Every produced key is a non-empty string, so the source's
trailing `.filter(Boolean)` drops nothing and the key list has the same
length as `person.education`. -/
def getPersonEducationSchools (person : Person) : List String :=
  person.education.map fun edu =>
    match edu.schoolId with
    | some sid => sid
    | none =>
      match edu.school with
      | some s => "name_" ++ normalizeWith '_' s
      | none => "unknown"

/-- NetworkGenerator.getPersonCompanies: the raw company names, `"unknown"`
standing in for a missing name (`company.name || 'unknown'`); the trailing
`.filter(Boolean)` drops nothing. -/
def getPersonCompanies (person : Person) : List String :=
  person.companies.map fun c => c.name.getD "unknown"

/-- Person.getCompanyNames (PersonClass): the normalized company names used by
the pairwise company scan. -/
def Person.getCompanyNames (person : Person) : List String :=
  person.companies.map (·.normalizedName)

/-- NetworkGenerator.getPersonSkills; skills are non-empty strings, so the
source's `.filter(Boolean)` drops nothing. -/
def getPersonSkills (person : Person) : List String :=
  person.skills

/-- Shared school keys of a pair, as computed inside
`generateEducationConnections` (keys of person1 that person2 also has). -/
def sharedSchools (p1 p2 : Person) : List String :=
  (getPersonEducationSchools p1).filter
    (fun s => decide (s ∈ getPersonEducationSchools p2))

/-- Shared normalized company names of a pair (`generateCompanyConnections`). -/
def sharedCompanies (p1 p2 : Person) : List String :=
  p1.getCompanyNames.filter (fun s => decide (s ∈ p2.getCompanyNames))

/-- Shared skills of a pair (`generateSkillsConnections`). -/
def sharedSkills (p1 p2 : Person) : List String :=
  p1.skills.filter (fun s => decide (s ∈ p2.skills))

/-- NetworkGenerator.calculateEducationStrength (the source's `maxSchools`
local is inlined). -/
def calculateEducationStrength (p1 p2 : Person) (shared : List String) : ℚ :=
  if shared.length = 0 then 0
  else
    min 1 ((shared.length : ℚ) /
      max 1 ((max p1.education.length p2.education.length : ℕ) : ℚ))

/-- NetworkGenerator.calculateCompanyStrength (the `maxCompanies` local is
inlined). -/
def calculateCompanyStrength (p1 p2 : Person) (shared : List String) : ℚ :=
  if shared.length = 0 then 0
  else
    min 1 ((shared.length : ℚ) /
      max 1 ((max p1.companies.length p2.companies.length : ℕ) : ℚ))

/-- NetworkGenerator.calculateLocationStrength. -/
def calculateLocationStrength (p1 p2 : Person) : ℚ :=
  match p1.location, p2.location with
  | some l1, some l2 =>
    if l1.city = l2.city then 1
    else if l1.country = l2.country then 0.3
    else 0
  | _, _ => 0

/-- NetworkGenerator.calculateSkillsStrength (`new Set([...s1, ...s2]).size`
is the cardinality of the appended lists' finset; the `totalSkills` local is
inlined). -/
def calculateSkillsStrength (p1 p2 : Person) (shared : List String) : ℚ :=
  if shared.length = 0 then 0
  else
    min 1 ((shared.length : ℚ) /
      max 1 (((p1.skills ++ p2.skills).toFinset.card : ℕ) : ℚ))

/-- Modelled from the spec: the education/company strength formula
`min(1, |intersection| / max(1, max(|setA|, |setB|)))` over group-key sets. -/
def specSetStrength (A B : Finset String) : ℚ :=
  min 1 (((A ∩ B).card : ℚ) / max 1 ((max A.card B.card : ℕ) : ℚ))

/-- Modelled from the spec: the skills strength formula
`min(1, |intersection| / |union(setA, setB)|)`, an empty denominator yielding
`0` as mandated by the spec's error-handling section. -/
def specSkillsStrength (A B : Finset String) : ℚ :=
  if (A ∪ B).card = 0 then 0
  else min 1 (((A ∩ B).card : ℚ) / ((A ∪ B).card : ℚ))

/-- Modelled from the spec: location strength — `1.0` for an identical city
key, `0.3` for an identical country key only, `0` otherwise and `0` when
either entity has no location. -/
def specLocationStrength (l1 l2 : Option Loc) : ℚ :=
  match l1, l2 with
  | some a, some b =>
    if a.city = b.city then 1
    else if a.country = b.country then 0.3
    else 0
  | _, _ => 0

/-- Modelled from the spec: `averageDegree = edges / max(1, entities)`. -/
def specAverageDegree (edges entities : ℕ) : ℚ :=
  (edges : ℚ) / max 1 (entities : ℚ)

/-- Stable insert modelling one step of `Array.sort`: `keep y x = true` means
the existing element `y` may stay in front of the incoming `x` (comparator
result `cmp(y, x) <= 0`).  The incoming element lands after every element it
need not precede — the stability guarantee of the ECMAScript sort. -/
def stableInsert (keep : α → α → Bool) (x : α) : List α → List α
  | [] => [x]
  | y :: ys => if keep y x then y :: stableInsert keep x ys else x :: y :: ys

/-- Stable sort modelling `Array.sort(cmp)` with `keep y x = (cmp(y,x) <= 0)`. -/
def stableSort (keep : α → α → Bool) (l : List α) : List α :=
  l.foldl (fun acc x => stableInsert keep x acc) []

/-- One `counts.set(key, (counts.get(key) || 0) + 1)` step on an association
list standing for a JS Map: update in place, append a new key at the end. -/
def bumpCount (k : String) : List (String × Nat) → List (String × Nat)
  | [] => [(k, 1)]
  | kv :: rest =>
    if kv.1 = k then (kv.1, kv.2 + 1) :: rest else kv :: bumpCount k rest

/-- Tally of a key stream: per-key counters in first-occurrence order, as
produced by filling a JS Map and iterating its entries. -/
def tally (keys : List String) : List (String × Nat) :=
  keys.foldl (fun acc k => bumpCount k acc) []

/-- Shared shape of getTopSchools / getTopCompanies / getTopSkills /
getTopLocations: tally the key stream, sort by count descending (the
comparator only compares counts, so ties keep first-occurrence order) and
take the first `n` entries. -/
def topKeysByFreq (keys : List String) (n : Nat) : List (String × Nat) :=
  (stableSort (fun y x => decide (x.2 ≤ y.2)) (tally keys)).take n

/-- Key stream tallied by getTopSchools: every education key of every person
in order, the `'unknown'` sentinel skipped. -/
def schoolKeyStream (people : List Person) : List String :=
  people.flatMap fun p =>
    (getPersonEducationSchools p).filter (fun s => decide (s ≠ "unknown"))

/-- Key stream tallied by getTopCompanies. -/
def companyKeyStream (people : List Person) : List String :=
  people.flatMap fun p =>
    (getPersonCompanies p).filter (fun s => decide (s ≠ "unknown"))

/-- Key stream tallied by getTopSkills (`skill && skill !== 'unknown'` also
skips the empty, falsy, string). -/
def skillKeyStream (people : List Person) : List String :=
  people.flatMap fun p =>
    (getPersonSkills p).filter (fun s => decide (s ≠ "" ∧ s ≠ "unknown"))

/-- Key stream tallied by getTopLocations (`person.location?.city ||
'Unknown'`, the `'Unknown'` sentinel skipped). -/
def locationKeyStream (people : List Person) : List String :=
  (people.map fun p => (p.location.bind Loc.city).getD "Unknown").filter
    (fun s => decide (s ≠ "Unknown"))

/-- NetworkGenerator.getTopSchools. -/
def getTopSchools (people : List Person) (count : Nat) : List (String × Nat) :=
  topKeysByFreq (schoolKeyStream people) count

/-- NetworkGenerator.getTopCompanies. -/
def getTopCompanies (people : List Person) (count : Nat) : List (String × Nat) :=
  topKeysByFreq (companyKeyStream people) count

/-- NetworkGenerator.getTopSkills. -/
def getTopSkills (people : List Person) (count : Nat) : List (String × Nat) :=
  topKeysByFreq (skillKeyStream people) count

/-- NetworkGenerator.getTopLocations. -/
def getTopLocations (people : List Person) (count : Nat) : List (String × Nat) :=
  topKeysByFreq (locationKeyStream people) count

/-- Relationship dimension (ConnectionTypes.js). -/
inductive ConnType
  | education
  | company
  | location
  | skills
deriving Repr, DecidableEq

/-- Per-dimension attribute list of one person, as selected by the `switch`
statements of generateNodes / generateLegendData / generateBipartiteNodes. -/
def personItems (t : ConnType) (p : Person) : List String :=
  match t with
  | .education => getPersonEducationSchools p
  | .company => getPersonCompanies p
  | .skills => getPersonSkills p
  | .location => [(p.location.bind Loc.city).getD "Unknown"]

/-- The key stream whose tally underlies the top-N ranking of a dimension. -/
def dimensionKeyStream (t : ConnType) (people : List Person) : List String :=
  match t with
  | .education => schoolKeyStream people
  | .company => companyKeyStream people
  | .skills => skillKeyStream people
  | .location => locationKeyStream people

/-- A pairwise connection record; the source's `metadata` field only carries
copies of the inputs and is omitted. -/
structure Conn where
  source : Nat
  target : Nat
  strength : ℚ
  type : ConnType
  sharedItems : List String
deriving Repr, DecidableEq

/-- All pairs `(l[i], l[j])` with `i < j`, in the visit order of the nested
`for` loops of the connection generators. -/
def pairsUpper : List α → List (α × α)
  | [] => []
  | x :: xs => (xs.map fun y => (x, y)) ++ pairsUpper xs

/-- Loop body of generateEducationConnections: the connection pushed for one
visited pair, if any. -/
def educationPairConn (threshold : ℚ) (p1 p2 : Person) : Option Conn :=
  let shared := sharedSchools p1 p2
  if shared.length > 0 then
    let strength := calculateEducationStrength p1 p2 shared
    if strength ≥ threshold then
      some ⟨p1.id, p2.id, strength, .education, shared⟩
    else none
  else none

/-- Loop body of generateCompanyConnections. -/
def companyPairConn (threshold : ℚ) (p1 p2 : Person) : Option Conn :=
  let shared := sharedCompanies p1 p2
  if shared.length > 0 then
    let strength := calculateCompanyStrength p1 p2 shared
    if strength ≥ threshold then
      some ⟨p1.id, p2.id, strength, .company, shared⟩
    else none
  else none

/-- Loop body of generateLocationConnections (`sharedItems` is the first
person's full location or `'Unknown'`). -/
def locationPairConn (threshold : ℚ) (p1 p2 : Person) : Option Conn :=
  let strength := calculateLocationStrength p1 p2
  if strength ≥ threshold then
    some ⟨p1.id, p2.id, strength, .location,
      [(p1.location.bind Loc.full).getD "Unknown"]⟩
  else none

/-- Loop body of generateSkillsConnections. -/
def skillsPairConn (threshold : ℚ) (p1 p2 : Person) : Option Conn :=
  let shared := sharedSkills p1 p2
  if shared.length > 0 then
    let strength := calculateSkillsStrength p1 p2 shared
    if strength ≥ threshold then
      some ⟨p1.id, p2.id, strength, .skills, shared⟩
    else none
  else none

/-- NetworkGenerator.generateEducationConnections. -/
def generateEducationConnections (people : List Person) (threshold : ℚ) :
    List Conn :=
  (pairsUpper people).filterMap fun pq => educationPairConn threshold pq.1 pq.2

/-- NetworkGenerator.generateCompanyConnections. -/
def generateCompanyConnections (people : List Person) (threshold : ℚ) :
    List Conn :=
  (pairsUpper people).filterMap fun pq => companyPairConn threshold pq.1 pq.2

/-- NetworkGenerator.generateLocationConnections. -/
def generateLocationConnections (people : List Person) (threshold : ℚ) :
    List Conn :=
  (pairsUpper people).filterMap fun pq => locationPairConn threshold pq.1 pq.2

/-- NetworkGenerator.generateSkillsConnections. -/
def generateSkillsConnections (people : List Person) (threshold : ℚ) :
    List Conn :=
  (pairsUpper people).filterMap fun pq => skillsPairConn threshold pq.1 pq.2

/-- NetworkGenerator.generateConnections; the per-instance result cache keyed
by type, threshold and population size only memoizes within one generator
instance and is modelled away by purity. -/
def generateConnections (people : List Person) (t : ConnType) (threshold : ℚ) :
    List Conn :=
  match t with
  | .education => generateEducationConnections people threshold
  | .company => generateCompanyConnections people threshold
  | .location => generateLocationConnections people threshold
  | .skills => generateSkillsConnections people threshold

/-- NetworkGenerator.estimateConnectionCount. -/
def estimateConnectionCount (person : Person) : Nat :=
  person.companies.length + person.education.length + person.skills.length

/-- NetworkGenerator.selectPeople: keep everyone when within `maxNodes`,
otherwise stable-sort by estimated connectivity descending and keep the first
`maxNodes`. -/
def selectPeople (people : List Person) (maxNodes : Nat) : List Person :=
  if people.length ≤ maxNodes then people
  else
    (stableSort
      (fun y x => decide (estimateConnectionCount x ≤ estimateConnectionCount y))
      people).take maxNodes

/-- NetworkGenerator.filterConnectedPeople: keep the people whose id occurs as
an endpoint of some connection. -/
def filterConnectedPeople (people : List Person) (connections : List Conn) :
    List Person :=
  people.filter fun person =>
    connections.any fun c => c.source == person.id || c.target == person.id

/-- Palette and sizing constants the generators read from `NetworkDefaults`. -/
structure Defaults where
  colors : List String
  otherColor : String
  baseSize : ℚ
  connectionMultiplier : ℚ
  minSize : ℚ
  maxSize : ℚ
deriving Repr, DecidableEq

/-- The 12-color `NetworkDefaults` variant bundled with the pairwise
generator's source tree (its `ranges.topN` allows requests up to 20). -/
def defaults12 : Defaults where
  colors := ["#EF4444", "#F97316", "#F59E0B", "#EAB308", "#84CC16", "#22C55E",
             "#10B981", "#14B8A6", "#06B6D4", "#0EA5E9", "#3B82F6", "#6366F1"]
  otherColor := "#9CA3AF"
  baseSize := 8
  connectionMultiplier := 4
  minSize := 6
  maxSize := 30

/-- The 15-color `NetworkDefaults` variant the bipartite generator refers to
as "our 15-color palette". -/
def defaults15 : Defaults where
  colors := ["#800000", "#9A6324", "#469990", "#000075", "#e6194B",
             "#f58231", "#ffe119", "#3cb44b", "#42d4f4", "#4363d8",
             "#f032e6", "#fabed4", "#fffac8", "#aaffc3", "#dcbeff"]
  otherColor := "#a9a9a9"
  baseSize := 8
  connectionMultiplier := 4
  minSize := 6
  maxSize := 30

/-- Edge color per relationship dimension (`ConnectionConfig[type].color`). -/
def connectionTypeColor (t : ConnType) : String :=
  match t with
  | .education => "#8B5CF6"
  | .company => "#10B981"
  | .location => "#F59E0B"
  | .skills => "#EF4444"

/-- Preferred rest length per dimension (`ConnectionConfig[type].maxDistance`). -/
def connectionTypeMaxDistance (t : ConnType) : ℚ :=
  match t with
  | .education => 120
  | .company => 100
  | .location => 150
  | .skills => 80

/-- NetworkGenerator.monthNameToNumber: 1..12 from the first three letters of
a month name, `0` for a missing or unrecognized month. -/
def monthNameToNumber (m : Option String) : Nat :=
  match m with
  | none => 0
  | some s =>
    let k := (s.toLower.take 3)
    if k = "jan" then 1 else if k = "feb" then 2 else if k = "mar" then 3
    else if k = "apr" then 4 else if k = "may" then 5 else if k = "jun" then 6
    else if k = "jul" then 7 else if k = "aug" then 8 else if k = "sep" then 9
    else if k = "oct" then 10 else if k = "nov" then 11 else if k = "dec" then 12
    else 0

/-- The `this.monthNameToNumber(...) || 12` idiom of getMostRecentEducation:
an unknown month counts as December. -/
def monthOr12 (m : Option String) : Nat :=
  let n := monthNameToNumber m
  if n = 0 then 12 else n

/-- One step of the `reduce` inside getMostRecentEducation: an entry without
an end date counts as current (most recent); otherwise compare years
(`endDate.year || 0`), then months. -/
def moreRecentEdu (latest current : Edu) : Edu :=
  match current.endDate with
  | none => current
  | some cEnd =>
    match latest.endDate with
    | none => latest
    | some lEnd =>
      let currentYear := cEnd.year.getD 0
      let latestYear := lEnd.year.getD 0
      if currentYear ≠ latestYear then
        if currentYear > latestYear then current else latest
      else
        if monthOr12 cEnd.month > monthOr12 lEnd.month then current else latest

/-- Result record of getMostRecentEducation. -/
structure RecentEdu where
  school : String
  schoolId : String
deriving Repr, DecidableEq

/-- NetworkGenerator.getMostRecentEducation (`education.reduce(...)` starts
from the head of the list). -/
def getMostRecentEducation (person : Person) : RecentEdu :=
  match person.education with
  | [] => ⟨"No Education Listed", "none"⟩
  | e :: es =>
    let mostRecent := es.foldl moreRecentEdu e
    ⟨mostRecent.school.getD "Unknown School",
     ((mostRecent.schoolId).orElse fun _ => mostRecent.school).getD "unknown"⟩

/-- NetworkGenerator.getSchoolNameById: recover a display school name from a
key, reversing the `name_` fallback normalization when needed. -/
def getSchoolNameById (person : Person) (schoolId : String) : Option String :=
  if schoolId.startsWith "name_" then
    let normalizedName := ((schoolId.drop 5).replace "_" " ")
    (person.education.find? fun edu =>
      match edu.school with
      | some s => (normalizeWith ' ' s).trim == normalizedName
      | none => false).bind Edu.school
  else
    (person.education.find? fun edu =>
      edu.schoolId == some schoolId || edu.school == some schoolId).bind Edu.school

/-- NetworkGenerator.getBestRankingItem: the item of `items` whose index in
the top list is smallest (first such item on rank ties), `none` when no item
is ranked. -/
def getBestRankingItem (items : List String) (top : List (String × Nat)) :
    Option String :=
  (items.foldl
    (fun best item =>
      match top.findIdx? (fun g => g.1 == item) with
      | some rank =>
        match best with
        | some br => if rank < br.2 then some (item, rank) else some br
        | none => some (item, rank)
      | none => best)
    none).map Prod.fst

/-- Group key and display label of one person (getPersonGroup result). -/
structure GroupInfo where
  key : String
  label : String
deriving Repr, DecidableEq

/-- NetworkGenerator.getPersonGroup.  The source reads the ranked top list
from mutable instance fields (`this.cachedTopSchools` and friends) populated
by getGroupColors within the same generation pass; the list is threaded here
as the explicit `cachedTop` argument.  The education fallback key and label
(`schoolId || 'Unknown'`, `school || 'Unknown School'`) are taken directly
from getMostRecentEducation, whose fields are always non-empty strings. -/
def getPersonGroup (cachedTop : List (String × Nat)) (person : Person)
    (t : ConnType) : GroupInfo :=
  match t with
  | .education =>
    match getBestRankingItem (getPersonEducationSchools person) cachedTop with
    | some bestSchoolId =>
      ⟨bestSchoolId, (getSchoolNameById person bestSchoolId).getD bestSchoolId⟩
    | none =>
      let mostRecent := getMostRecentEducation person
      ⟨mostRecent.schoolId, mostRecent.school⟩
  | .company =>
    match getBestRankingItem (getPersonCompanies person) cachedTop with
    | some best => ⟨best, best⟩
    | none => ⟨"Unknown", "Unknown Company"⟩
  | .location =>
    ⟨(person.location.bind Loc.city).getD "Unknown",
     (person.location.bind Loc.full).getD "Unknown Location"⟩
  | .skills =>
    match getBestRankingItem (getPersonSkills person) cachedTop with
    | some best => ⟨best, best⟩
    | none => ⟨"Unknown", "No Skills Listed"⟩

/-- JS `Map.set` on an association list: update an existing key in place or
append the new binding at the end. -/
def mapSet (k v : String) : List (String × String) → List (String × String)
  | [] => [(k, v)]
  | kv :: rest =>
    if kv.1 = k then (k, v) :: rest else kv :: mapSet k v rest

/-- JS `Map.get` on an association list. -/
def mapGet (m : List (String × String)) (k : String) : Option String :=
  (m.find? fun kv => kv.1 == k).map Prod.snd

/-- Dispatcher shared by the `switch` statements selecting the top-item
computation for a dimension (the `default` branch repeats education). -/
def getTopForType (t : ConnType) (people : List Person) (n : Nat) :
    List (String × Nat) :=
  match t with
  | .education => getTopSchools people n
  | .company => getTopCompanies people n
  | .skills => getTopSkills people n
  | .location => getTopLocations people n

/-- Bipartite-variant getTopGroupsForType: caps the requested count at the
palette size before dispatching. -/
def getTopGroupsForType (cfg : Defaults) (people : List Person) (t : ConnType)
    (topN : Nat) : List (String × Nat) :=
  getTopForType t people (min topN cfg.colors.length)

/-- Pairwise-variant NetworkGenerator.getGroupColors.  Tallies how many
people fall into each person-group, sorts the groups by count descending and
colors the first `topN` of them with `colors[index % colors.length]`, the
rest with the overflow color.  There is no clamping of `topN` here.  Returns
the color map together with the top item list the source caches on the
instance; a dead local computing the set of group keys is dropped. -/
def getGroupColorsJs (cfg : Defaults) (people : List Person) (t : ConnType)
    (topN : Nat) : List (String × String) × List (String × Nat) :=
  let cachedTop := getTopForType t people topN
  let groupCounts := tally (people.map fun p => (getPersonGroup cachedTop p t).key)
  let sortedGroups := stableSort (fun y x => decide (x.2 ≤ y.2)) groupCounts
  let colorMap := sortedGroups.enum.foldl
    (fun m ig =>
      if ig.1 < topN then
        mapSet ig.2.1 (cfg.colors.getD (ig.1 % cfg.colors.length) "") m
      else
        mapSet ig.2.1 cfg.otherColor m)
    []
  (colorMap, cachedTop)

/-- Bipartite-variant getGroupColors: caps `topN` at the palette size, keys
the map by the capped top group list itself and assigns `colors[index]` to
every rank below the cap (ranks beyond the cap would get the overflow color,
but the top list never exceeds the cap).  Returns the color map together with
the top list the source caches on the instance. -/
def getGroupColorsBip (cfg : Defaults) (people : List Person) (t : ConnType)
    (topN : Nat) : List (String × String) × List (String × Nat) :=
  let effectiveTopN := min topN cfg.colors.length
  let topGroups := getTopGroupsForType cfg people t effectiveTopN
  let colorMap := topGroups.enum.foldl
    (fun m ig =>
      if ig.1 < effectiveTopN then mapSet ig.2.1 (cfg.colors.getD ig.1 "") m
      else mapSet ig.2.1 cfg.otherColor m)
    []
  (colorMap, topGroups)

/-- Visual node of the pairwise variant; the embedded `onClick` callback is
behavior, not data, and is dropped. -/
structure VisNode where
  id : Nat
  label : String
  fullName : String
  size : ℚ
  color : String
  multiColors : Option (List String)
  group : String
  groupLabel : String
  person : Person
deriving Repr, DecidableEq

/-- Node label: `person.firstName || person.name.split(' ')[0]`. -/
def personLabel (person : Person) : String :=
  person.firstName.getD ((person.name.splitOn " ").headD "")

/-- NetworkGenerator.calculateNodeSize; `Math.log` is the uninterpreted `log`
parameter (no claim depends on its values). -/
def calculateNodeSize (cfg : Defaults) (log : ℚ → ℚ) (person : Person)
    (connections : List Conn) : ℚ :=
  let connectionCount := (connections.filter fun c =>
    decide (c.source = person.id ∨ c.target = person.id)).length
  let connectionBonus :=
    if connectionCount > 0 then log ((connectionCount : ℚ) + 1) * cfg.connectionMultiplier
    else 0
  let calculatedSize := cfg.baseSize + connectionBonus
  max cfg.minSize (min cfg.maxSize calculatedSize)

/-- Per-person body of pairwise generateNodes.  A node's color comes from the
first featured item in the person's own item order (`personTopItems[0]`); two
or more featured items additionally yield the `multiColors` list. -/
def mkVisNode (cfg : Defaults) (log : ℚ → ℚ)
    (groupColors : List (String × String)) (t : ConnType)
    (connections : List Conn) (cachedTop topItems : List (String × Nat))
    (person : Person) : VisNode :=
  let groupInfo := getPersonGroup cachedTop person t
  let items := personItems t person
  let personTopItems := items.filter fun item => topItems.any fun g => g.1 == item
  let colorMulti : String × Option (List String) :=
    match personTopItems with
    | [] => (cfg.otherColor, none)
    | [single] => ((mapGet groupColors single).getD cfg.otherColor, none)
    | firstItem :: _ =>
      let multiColors := personTopItems.map fun item =>
        (mapGet groupColors item).getD cfg.otherColor
      ((mapGet groupColors firstItem).getD cfg.otherColor, some multiColors)
  { id := person.id, label := personLabel person, fullName := person.name,
    size := calculateNodeSize cfg log person connections,
    color := colorMulti.1, multiColors := colorMulti.2,
    group := groupInfo.key, groupLabel := groupInfo.label, person := person }

/-- Pairwise NetworkGenerator.generateNodes.  `topItems` is recomputed by the
dispatcher exactly as the source's `switch` does, while `cachedTop` is the
instance cache getPersonGroup reads. -/
def generateNodes (cfg : Defaults) (log : ℚ → ℚ) (people : List Person)
    (groupColors : List (String × String)) (t : ConnType) (topN : Nat)
    (connections : List Conn) (cachedTop : List (String × Nat)) : List VisNode :=
  people.map
    (mkVisNode cfg log groupColors t connections cachedTop
      (getTopForType t people topN))

/-- Visual edge of the pairwise variant. -/
structure VisLink where
  source : Nat
  target : Nat
  strength : ℚ
  color : String
  width : ℚ
  opacity : ℚ
  distance : ℚ
  type : ConnType
deriving Repr, DecidableEq

/-- NetworkGenerator.generateLinks (the `metadata` copy is omitted). -/
def generateLinks (connections : List Conn) (t : ConnType) : List VisLink :=
  connections.map fun conn =>
    { source := conn.source, target := conn.target, strength := conn.strength,
      color := connectionTypeColor t, width := max 1 (conn.strength * 4),
      opacity := max 0.3 conn.strength,
      distance := connectionTypeMaxDistance t, type := conn.type }

/-- One legend row.  `entryType` models the optional `type` field (`'group'`
in the bipartite variant, absent in the pairwise one); `people` is the
per-entry deduplicated id list (absent, hence `[]`, in the bipartite rows). -/
structure LegendEntry where
  key : String
  label : String
  color : String
  count : Nat
  people : List Nat
  entryType : Option String
deriving Repr, DecidableEq

/-- One `groups.set(...)` step of pairwise generateLegendData: create the
entry on a new key (label and color fixed at creation), otherwise increment
the naive count and record the person id if it is new. -/
def legendBump (k lbl color : String) (pid : Nat) :
    List LegendEntry → List LegendEntry
  | [] => [⟨k, lbl, color, 1, [pid], none⟩]
  | e :: es =>
    if e.key = k then
      { e with count := e.count + 1,
               people := if pid ∈ e.people then e.people else e.people ++ [pid] } :: es
    else e :: legendBump k lbl color pid es

/-- Display label of a featured item in the pairwise legend:
`getSchoolNameById` for education, the key itself otherwise
(`getCompanyNameById` is the identity on the name key). -/
def legendItemLabel (t : ConnType) (person : Person) (item : String) : String :=
  match t with
  | .education => (getSchoolNameById person item).getD item
  | _ => item

/-- Per-person step of pairwise generateLegendData: a person with featured
items is counted once per such item occurrence; a person with none is counted
under its person-group key. -/
def legendAddPerson (cfg : Defaults) (t : ConnType)
    (cachedTop : List (String × Nat)) (groupColors : List (String × String))
    (acc : List LegendEntry) (person : Person) : List LegendEntry :=
  let items := personItems t person
  let personTopItems := items.filter fun item => cachedTop.any fun g => g.1 == item
  if personTopItems.length > 0 then
    personTopItems.foldl
      (fun acc item =>
        legendBump item (legendItemLabel t person item)
          ((mapGet groupColors item).getD cfg.otherColor) person.id acc)
      acc
  else
    let groupInfo := getPersonGroup cachedTop person t
    legendBump groupInfo.key groupInfo.label
      ((mapGet groupColors groupInfo.key).getD cfg.otherColor) person.id acc

/-- Comparator of the legend sorts, count descending then label ascending
(`localeCompare` modelled as lexicographic string order): `true` when the
earlier element may stay in front of the later one. -/
def legendKeep (y x : LegendEntry) : Bool :=
  decide (x.count < y.count ∨ (x.count = y.count ∧ y.label ≤ x.label))

/-- Label of the synthetic overflow row, per dimension. -/
def legendOtherLabel (t : ConnType) (n : Nat) : String :=
  match t with
  | .education => "Other Schools (" ++ toString n ++ ")"
  | .company => "Other Companies (" ++ toString n ++ ")"
  | .skills => "Other Skills (" ++ toString n ++ ")"
  | .location => "Other Locations (" ++ toString n ++ ")"

/-- JS `[...new Set(l)]`: the distinct elements in first-occurrence order. -/
def dedupFirst (l : List Nat) : List Nat :=
  l.foldl (fun acc x => if x ∈ acc then acc else acc ++ [x]) []

/-- Pairwise NetworkGenerator.generateLegendData: build per-group entries,
sort them, then collapse every overflow-colored entry into one synthetic
"Other ..." row whose count is the number of distinct people across those
entries (the source's dead `otherCount` naive sum is discarded there too). -/
def generateLegendData (cfg : Defaults) (people : List Person)
    (groupColors : List (String × String)) (t : ConnType)
    (cachedTop : List (String × Nat)) : List LegendEntry :=
  let entries := people.foldl (legendAddPerson cfg t cachedTop groupColors) []
  let sortedGroups := stableSort legendKeep entries
  let coloredGroups := sortedGroups.filter fun g => decide (g.color ≠ cfg.otherColor)
  let grayGroups := sortedGroups.filter fun g => decide (g.color = cfg.otherColor)
  if grayGroups.length > 0 then
    let otherPeople := dedupFirst (grayGroups.flatMap LegendEntry.people)
    let otherEntry : LegendEntry :=
      ⟨"others", legendOtherLabel t grayGroups.length, cfg.otherColor,
        otherPeople.length, otherPeople, none⟩
    stableSort legendKeep (coloredGroups ++ [otherEntry])
  else coloredGroups

/-- Option bundle passed to generateNetwork. -/
structure NetworkOptions where
  connectionType : ConnType
  threshold : ℚ
  maxNodes : Nat
  includeIsolated : Bool
  topN : Nat
deriving Repr, DecidableEq

/-- Metadata of the pairwise variant; `averageConnections` is a raw JS
division that is non-finite (`none`) on an empty retained population. -/
structure JsMetadata where
  connectionType : ConnType
  threshold : ℚ
  topN : Nat
  totalPeople : Nat
  totalConnections : Nat
  averageConnections : Option ℚ
deriving Repr, DecidableEq

/-- Result of the pairwise generateNetwork. -/
structure JsNetwork where
  nodes : List VisNode
  links : List VisLink
  legendData : List LegendEntry
  metadata : JsMetadata
deriving Repr, DecidableEq

/-- The `filteredPeople` local of both generateNetwork variants: the
selected population, thinned to pairwise-connected people unless isolated
entities are kept. -/
def filteredPeopleFor (people : List Person) (opts : NetworkOptions) :
    List Person :=
  let selectedPeople := selectPeople people opts.maxNodes
  if opts.includeIsolated then selectedPeople
  else filterConnectedPeople selectedPeople
    (generateConnections selectedPeople opts.connectionType opts.threshold)

/-- Pairwise NetworkGenerator.generateNetwork: select, connect, optionally
drop unconnected people, color, then build nodes, links and legend.  Note
`averageConnections = connections.length / filteredPeople.length` has no
division guard. -/
def generateNetworkJs (cfg : Defaults) (log : ℚ → ℚ) (people : List Person)
    (opts : NetworkOptions) : JsNetwork :=
  let selectedPeople := selectPeople people opts.maxNodes
  let connections :=
    generateConnections selectedPeople opts.connectionType opts.threshold
  let filteredPeople := filteredPeopleFor people opts
  let gc := getGroupColorsJs cfg filteredPeople opts.connectionType opts.topN
  let nodes := generateNodes cfg log filteredPeople gc.1 opts.connectionType
    opts.topN connections gc.2
  let links := generateLinks connections opts.connectionType
  let legendData :=
    generateLegendData cfg filteredPeople gc.1 opts.connectionType gc.2
  let md : JsMetadata :=
    { connectionType := opts.connectionType, threshold := opts.threshold,
      topN := opts.topN, totalPeople := filteredPeople.length,
      totalConnections := connections.length,
      averageConnections :=
        jsDiv (connections.length : ℚ) (filteredPeople.length : ℚ) }
  { nodes := nodes, links := links, legendData := legendData, metadata := md }

/-- Node identifier of the bipartite variant: entity nodes carry the person
id, group nodes the `group_`-marked key (a distinct constructor here, ids
being opaque). -/
inductive NodeId
  | person (id : Nat)
  | group (key : String)
deriving Repr, DecidableEq

/-- Node of the bipartite variant; fields the source leaves undefined on the
other node kind are `Option`s or defaults, and the `onClick` callback is
dropped as behavior. -/
structure BipNode where
  id : NodeId
  label : String
  fullName : String
  size : ℚ
  color : String
  multiColors : Option (List String)
  type : String
  person : Option Person
  topGroups : List String
  isIsolated : Bool
  groupKey : Option String
  memberCount : Option Nat
deriving Repr, DecidableEq

/-- Group-node label truncation: `label.substring(0, 17) + '...'` past 20
characters. -/
def truncateLabel (label : String) : String :=
  if label.length > 20 then (label.take 17) ++ "..." else label

/-- Display label of a top group in the bipartite variant: for education, the
school name recovered through the first member person found, otherwise the
key itself. -/
def bipGroupLabel (people : List Person) (t : ConnType) (key : String) : String :=
  match t with
  | .education =>
    match people.find? (fun p => (getPersonEducationSchools p).contains key) with
    | some samplePerson => (getSchoolNameById samplePerson key).getD key
    | none => key
  | _ => key

/-- One entity node of generateBipartiteNodes: colored by the first featured
group among the person's items, `multiColors` on two or more, marked isolated
when it belongs to no featured group. -/
def mkBipPersonNode (cfg : Defaults) (t : ConnType) (topGroupKeys : List String)
    (groupColors : List (String × String)) (person : Person) : BipNode :=
  let items := personItems t person
  let personTopGroups := items.filter fun item => decide (item ∈ topGroupKeys)
  let colorMulti : String × Option (List String) :=
    match personTopGroups with
    | [] => (cfg.otherColor, none)
    | [single] => ((mapGet groupColors single).getD cfg.otherColor, none)
    | firstItem :: _ =>
      let multiColors := personTopGroups.map fun item =>
        (mapGet groupColors item).getD cfg.otherColor
      ((mapGet groupColors firstItem).getD cfg.otherColor, some multiColors)
  { id := .person person.id, label := personLabel person,
    fullName := person.name, size := cfg.baseSize, color := colorMulti.1,
    multiColors := colorMulti.2, type := "person", person := some person,
    topGroups := personTopGroups,
    isIsolated := personTopGroups.length == 0,
    groupKey := none, memberCount := none }

/-- One group node of generateBipartiteNodes (log-scaled member count clamped
into the visual size range). -/
def mkBipGroupNode (cfg : Defaults) (log : ℚ → ℚ) (people : List Person)
    (t : ConnType) (groupColors : List (String × String))
    (group : String × Nat) : BipNode :=
  let label := bipGroupLabel people t group.1
  { id := .group group.1, label := truncateLabel label, fullName := label,
    size := max (cfg.baseSize * 1.5)
      (min cfg.maxSize (cfg.baseSize + log ((group.2 : ℚ) + 1) * 3)),
    color := (mapGet groupColors group.1).getD cfg.otherColor,
    multiColors := none, type := "group", person := none, topGroups := [],
    isIsolated := false, groupKey := some group.1, memberCount := some group.2 }

/-- part_003 generateBipartiteNodes (its locally computed `effectiveTopN` is
dead there and not reproduced). -/
def generateBipartiteNodes (cfg : Defaults) (log : ℚ → ℚ)
    (people : List Person) (groupColors : List (String × String))
    (t : ConnType) (topGroups : List (String × Nat)) :
    List BipNode × List BipNode :=
  let topGroupKeys := topGroups.map Prod.fst
  (people.map (mkBipPersonNode cfg t topGroupKeys groupColors),
   topGroups.map (mkBipGroupNode cfg log people t groupColors))

/-- Edge of the bipartite variant, from a person id to a group-node id. -/
structure BipLink where
  source : Nat
  target : String
  strength : ℚ
  color : String
  width : ℚ
  opacity : ℚ
  type : String
  groupKey : String
  connectionType : ConnType
deriving Repr, DecidableEq

/-- Per-person body of generatePersonToGroupLinks: one link per occurrence
of a featured group key among the person's items. -/
def personGroupLinks (cfg : Defaults) (t : ConnType)
    (topGroupKeys : List String) (groupColors : List (String × String))
    (person : Person) : List BipLink :=
  (personItems t person).filterMap fun item =>
    if item ∈ topGroupKeys then
      some { source := person.id, target := "group_" ++ item, strength := 1,
             color := (mapGet groupColors item).getD cfg.otherColor,
             width := 2, opacity := 0.6, type := "person-to-group",
             groupKey := item, connectionType := t }
    else none

/-- part_003 generatePersonToGroupLinks. -/
def generatePersonToGroupLinks (cfg : Defaults) (people : List Person)
    (t : ConnType) (topGroups : List (String × Nat))
    (groupColors : List (String × String)) : List BipLink :=
  people.flatMap (personGroupLinks cfg t (topGroups.map Prod.fst) groupColors)

/-- Bipartite generateLegendData: one row per cached top group (the cached
`topN` re-capped at the palette size), sorted like the pairwise legend. -/
def generateLegendDataBip (cfg : Defaults) (people : List Person)
    (groupColors : List (String × String)) (t : ConnType) (cachedTopN : Nat) :
    List LegendEntry :=
  let effectiveTopN := min cachedTopN cfg.colors.length
  let topGroups := getTopGroupsForType cfg people t effectiveTopN
  let entries := topGroups.map fun g =>
    (⟨g.1, bipGroupLabel people t g.1,
      (mapGet groupColors g.1).getD cfg.otherColor, g.2, [], some "group"⟩ :
      LegendEntry)
  stableSort legendKeep entries

/-- Metadata of the bipartite variant; its average has the `max 1` guard. -/
structure BipMetadata where
  connectionType : ConnType
  threshold : ℚ
  topN : Nat
  effectiveTopN : Nat
  totalPeople : Nat
  totalGroups : Nat
  totalNodes : Nat
  totalConnections : Nat
  averageConnections : ℚ
  isolatedPeople : Nat
  networkType : String
deriving Repr, DecidableEq

/-- Result of the bipartite generateNetwork. -/
structure BipNetwork where
  nodes : List BipNode
  links : List BipLink
  legendData : List LegendEntry
  metadata : BipMetadata
deriving Repr, DecidableEq

/-- The `groupColors` map of the bipartite generateNetwork pass (the source
stores it in the local `groupColors`). -/
def bipGroupColorMap (cfg : Defaults) (people : List Person)
    (opts : NetworkOptions) : List (String × String) :=
  (getGroupColorsBip cfg (filteredPeopleFor people opts) opts.connectionType
    (min opts.topN cfg.colors.length)).1

/-- The `topGroups` local of the bipartite generateNetwork pass. -/
def bipTopGroups (cfg : Defaults) (people : List Person)
    (opts : NetworkOptions) : List (String × Nat) :=
  getTopGroupsForType cfg (filteredPeopleFor people opts) opts.connectionType
    (min opts.topN cfg.colors.length)

/-- The `peopleNodes` local of the bipartite generateNetwork pass. -/
def bipPeopleNodes (cfg : Defaults) (log : ℚ → ℚ) (people : List Person)
    (opts : NetworkOptions) : List BipNode :=
  (generateBipartiteNodes cfg log (filteredPeopleFor people opts)
    (bipGroupColorMap cfg people opts) opts.connectionType
    (bipTopGroups cfg people opts)).1

/-- The `groupNodes` local of the bipartite generateNetwork pass. -/
def bipGroupNodes (cfg : Defaults) (log : ℚ → ℚ) (people : List Person)
    (opts : NetworkOptions) : List BipNode :=
  (generateBipartiteNodes cfg log (filteredPeopleFor people opts)
    (bipGroupColorMap cfg people opts) opts.connectionType
    (bipTopGroups cfg people opts)).2

/-- The `finalPeopleNodes` local of the bipartite generateNetwork pass:
entity nodes, isolated ones dropped unless the caller keeps them. -/
def bipFinalPeopleNodes (cfg : Defaults) (log : ℚ → ℚ) (people : List Person)
    (opts : NetworkOptions) : List BipNode :=
  if opts.includeIsolated then bipPeopleNodes cfg log people opts
  else (bipPeopleNodes cfg log people opts).filter fun node => !node.isIsolated

/-- The `links` local of the bipartite generateNetwork pass: links for the
retained non-isolated people only. -/
def bipLinks (cfg : Defaults) (log : ℚ → ℚ) (people : List Person)
    (opts : NetworkOptions) : List BipLink :=
  generatePersonToGroupLinks cfg
    ((bipFinalPeopleNodes cfg log people opts).filterMap BipNode.person)
    opts.connectionType (bipTopGroups cfg people opts)
    (bipGroupColorMap cfg people opts)

/-- Bipartite generateNetwork (part_003), assembled from the named pass
locals above.  Pairwise connections are still computed and, when
`includeIsolated` is false, people with no pairwise connection are dropped
first; people with no featured-group membership are dropped again before
link generation. -/
def generateNetworkBip (cfg : Defaults) (log : ℚ → ℚ) (people : List Person)
    (opts : NetworkOptions) : BipNetwork :=
  let md : BipMetadata :=
    { connectionType := opts.connectionType, threshold := opts.threshold,
      topN := opts.topN, effectiveTopN := min opts.topN cfg.colors.length,
      totalPeople := (bipFinalPeopleNodes cfg log people opts).length,
      totalGroups := (bipTopGroups cfg people opts).length,
      totalNodes := (bipFinalPeopleNodes cfg log people opts ++
        bipGroupNodes cfg log people opts).length,
      totalConnections := (bipLinks cfg log people opts).length,
      averageConnections := ((bipLinks cfg log people opts).length : ℚ) /
        max 1 ((bipFinalPeopleNodes cfg log people opts).length : ℚ),
      isolatedPeople := (bipPeopleNodes cfg log people opts).length -
        (bipFinalPeopleNodes cfg log people opts).length,
      networkType := "bipartite" }
  { nodes := bipFinalPeopleNodes cfg log people opts ++
      bipGroupNodes cfg log people opts,
    links := bipLinks cfg log people opts,
    legendData := generateLegendDataBip cfg (filteredPeopleFor people opts)
      (bipGroupColorMap cfg people opts) opts.connectionType opts.topN,
    metadata := md }

/-- Simulation node state read by the boundary clamp of
ForceDirectedGraph.js: `size` is the node's visual radius (`d.size || 10`),
`x` and `y` its coordinates on the drawing surface. -/
structure SimNode where
  size : ℚ
  x : ℚ
  y : ℚ
deriving Repr, DecidableEq

/-- Per-node step of keepNodesInBounds: clamp each coordinate into
`[radius, innerDimension - radius]`. -/
def clampNode (innerWidth innerHeight : ℚ) (d : SimNode) : SimNode :=
  { d with x := max d.size (min (innerWidth - d.size) d.x),
           y := max d.size (min (innerHeight - d.size) d.y) }

/-- ForceDirectedGraph.keepNodesInBounds: the in-place per-node clamp over
the node array. -/
def keepNodesInBounds (innerWidth innerHeight : ℚ) (nodes : List SimNode) :
    List SimNode :=
  nodes.map (clampNode innerWidth innerHeight)

/-- One simulation tick as observed by the renderer: d3 integrates forces —
arbitrary here, so that any repulsion/spring/collision/centering combination
and any physics parameter values are admissible — and then the tick handler
runs keepNodesInBounds before drawing. -/
def simTick (forceIntegration : List SimNode → List SimNode)
    (innerWidth innerHeight : ℚ) (nodes : List SimNode) : List SimNode :=
  keepNodesInBounds innerWidth innerHeight (forceIntegration nodes)

theorem stableInsert_perm (keep : α → α → Bool) (x : α) (l : List α) :
    (stableInsert keep x l).Perm (x :: l) := by
  induction l with
  | nil => simp [stableInsert]
  | cons y ys ih =>
    by_cases h : keep y x = true
    · rw [stableInsert, if_pos h]
      exact (ih.cons y).trans (List.Perm.swap x y ys)
    · rw [stableInsert, if_neg h]

theorem stableSort_go_perm (keep : α → α → Bool) (l acc : List α) :
    (l.foldl (fun acc x => stableInsert keep x acc) acc).Perm (acc ++ l) := by
  induction l generalizing acc with
  | nil => simp
  | cons x xs ih =>
    rw [List.foldl_cons]
    refine (ih (stableInsert keep x acc)).trans ?_
    refine (List.Perm.append_right xs (stableInsert_perm keep x acc)).trans ?_
    exact List.perm_middle.symm

theorem stableSort_perm (keep : α → α → Bool) (l : List α) :
    (stableSort keep l).Perm l := by
  simpa [stableSort] using stableSort_go_perm keep l []

theorem stableInsert_sorted (f : α → Nat) (x : α) (l : List α)
    (h : l.Pairwise fun a b => f b ≤ f a) :
    (stableInsert (fun y x => decide (f x ≤ f y)) x l).Pairwise
      fun a b => f b ≤ f a := by
  induction l with
  | nil => simp [stableInsert]
  | cons y ys ih =>
    rcases List.pairwise_cons.1 h with ⟨hy, hys⟩
    by_cases hk : f x ≤ f y
    · rw [stableInsert, if_pos (by simpa using hk)]
      refine List.pairwise_cons.2 ⟨?_, ih hys⟩
      intro b hb
      rcases List.mem_cons.1 ((stableInsert_perm _ x ys).mem_iff.1 hb) with rfl | hb'
      · exact hk
      · exact hy b hb'
    · rw [stableInsert, if_neg (by simpa using hk)]
      refine List.pairwise_cons.2 ⟨?_, h⟩
      intro b hb
      rcases List.mem_cons.1 hb with rfl | hb'
      · exact le_of_lt (Nat.lt_of_not_le hk)
      · exact le_trans (hy b hb') (le_of_lt (Nat.lt_of_not_le hk))

theorem stableSort_go_sorted (f : α → Nat) (l acc : List α)
    (hacc : acc.Pairwise fun a b => f b ≤ f a) :
    (l.foldl (fun acc x => stableInsert (fun y x => decide (f x ≤ f y)) x acc)
        acc).Pairwise fun a b => f b ≤ f a := by
  induction l generalizing acc with
  | nil => simpa
  | cons x xs ih => exact ih _ (stableInsert_sorted f x acc hacc)

theorem stableSort_sorted (f : α → Nat) (l : List α) :
    (stableSort (fun y x => decide (f x ≤ f y)) l).Pairwise
      fun a b => f b ≤ f a :=
  stableSort_go_sorted f l [] (by simp)

/-- Count stored for key `k` in a tally association list, `0` when absent. -/
def countOf (m : List (String × Nat)) (k : String) : Nat :=
  ((m.find? fun kv => kv.1 == k).map Prod.snd).getD 0

theorem countOf_nil (k : String) : countOf [] k = 0 := rfl

theorem countOf_cons_eq (kv : String × Nat) (rest : List (String × Nat))
    (k : String) (h : kv.1 = k) : countOf (kv :: rest) k = kv.2 := by
  have hb : (kv.1 == k) = true := by simp [h]
  simp [countOf, List.find?_cons, hb]

theorem countOf_cons_ne (kv : String × Nat) (rest : List (String × Nat))
    (k : String) (h : ¬kv.1 = k) : countOf (kv :: rest) k = countOf rest k := by
  have hb : (kv.1 == k) = false := by simp [h]
  simp [countOf, List.find?_cons, hb]

theorem countOf_bumpCount_same (k : String) (m : List (String × Nat)) :
    countOf (bumpCount k m) k = countOf m k + 1 := by
  induction m with
  | nil => rw [bumpCount, countOf_cons_eq _ _ _ rfl, countOf_nil]
  | cons kv rest ih =>
    by_cases h : kv.1 = k
    · rw [bumpCount, if_pos h, countOf_cons_eq (kv.1, kv.2 + 1) rest k h,
        countOf_cons_eq kv rest k h]
    · rw [bumpCount, if_neg h, countOf_cons_ne _ _ _ h, countOf_cons_ne _ _ _ h]
      exact ih

theorem countOf_bumpCount_other {k k' : String} (h : k' ≠ k)
    (m : List (String × Nat)) : countOf (bumpCount k m) k' = countOf m k' := by
  induction m with
  | nil =>
    rw [bumpCount, countOf_cons_ne _ _ _ (by simpa using Ne.symm h), countOf_nil]
  | cons kv rest ih =>
    by_cases hk : kv.1 = k
    · have hne : ¬kv.1 = k' := by rw [hk]; exact Ne.symm h
      rw [bumpCount, if_pos hk, countOf_cons_ne (kv.1, kv.2 + 1) rest k' hne,
        countOf_cons_ne kv rest k' hne]
    · by_cases hk' : kv.1 = k'
      · rw [bumpCount, if_neg hk, countOf_cons_eq _ _ _ hk',
          countOf_cons_eq _ _ _ hk']
      · rw [bumpCount, if_neg hk, countOf_cons_ne _ _ _ hk',
          countOf_cons_ne _ _ _ hk']
        exact ih

theorem countOf_tally_go (keys : List String) (acc : List (String × Nat))
    (k : String) :
    countOf (keys.foldl (fun acc k => bumpCount k acc) acc) k
      = countOf acc k + keys.count k := by
  induction keys generalizing acc with
  | nil => simp
  | cons k0 ks ih =>
    rw [List.foldl_cons]
    rw [ih (bumpCount k0 acc)]
    by_cases h : k0 = k
    · subst h
      rw [countOf_bumpCount_same, List.count_cons_self]
      omega
    · rw [countOf_bumpCount_other (Ne.symm h), List.count_cons_of_ne (Ne.symm h)]

theorem countOf_tally (keys : List String) (k : String) :
    countOf (tally keys) k = keys.count k := by
  simpa [tally, countOf] using countOf_tally_go keys [] k

theorem keys_bumpCount (k : String) (m : List (String × Nat)) :
    (bumpCount k m).map Prod.fst =
      if k ∈ m.map Prod.fst then m.map Prod.fst else m.map Prod.fst ++ [k] := by
  induction m with
  | nil => simp [bumpCount]
  | cons kv rest ih =>
    by_cases h : kv.1 = k
    · rw [bumpCount, if_pos h]
      simp [h]
    · rw [bumpCount, if_neg h]
      simp only [List.map_cons, ih]
      by_cases hm : k ∈ rest.map Prod.fst
      · simp [hm, Ne.symm h]
      · simp [hm, Ne.symm h]

theorem keys_bumpCount_nodup (k : String) (m : List (String × Nat))
    (h : (m.map Prod.fst).Nodup) : ((bumpCount k m).map Prod.fst).Nodup := by
  rw [keys_bumpCount]
  by_cases hm : k ∈ m.map Prod.fst
  · simpa [hm]
  · rw [if_neg hm]
    refine List.Nodup.append h (List.nodup_singleton k) ?_
    intro a ha hmem
    rw [List.mem_singleton] at hmem
    exact hm (hmem ▸ ha)

theorem mem_keys_bumpCount (k k' : String) (m : List (String × Nat)) :
    k' ∈ (bumpCount k m).map Prod.fst ↔ k' ∈ m.map Prod.fst ∨ k' = k := by
  rw [keys_bumpCount]
  by_cases hm : k ∈ m.map Prod.fst
  · simp only [if_pos hm]
    constructor
    · exact fun h => Or.inl h
    · rintro (h | rfl)
      · exact h
      · exact hm
  · simp [hm]

theorem tally_go_keys_nodup (keys : List String) (acc : List (String × Nat))
    (h : (acc.map Prod.fst).Nodup) :
    (((keys.foldl (fun acc k => bumpCount k acc) acc)).map Prod.fst).Nodup := by
  induction keys generalizing acc with
  | nil => simpa
  | cons k0 ks ih => exact ih _ (keys_bumpCount_nodup k0 acc h)

theorem tally_keys_nodup (keys : List String) :
    ((tally keys).map Prod.fst).Nodup :=
  tally_go_keys_nodup keys [] (by simp)

theorem mem_tally_go_keys (keys : List String) (acc : List (String × Nat))
    (k : String) :
    k ∈ ((keys.foldl (fun acc k => bumpCount k acc) acc)).map Prod.fst ↔
      k ∈ acc.map Prod.fst ∨ k ∈ keys := by
  induction keys generalizing acc with
  | nil => simp
  | cons k0 ks ih =>
    rw [List.foldl_cons, ih (bumpCount k0 acc), mem_keys_bumpCount]
    simp only [List.mem_cons]
    tauto

theorem mem_tally_keys (keys : List String) (k : String) :
    k ∈ (tally keys).map Prod.fst ↔ k ∈ keys := by
  simpa [tally] using mem_tally_go_keys keys [] k

theorem countOf_of_mem {m : List (String × Nat)} {kc : String × Nat}
    (hn : (m.map Prod.fst).Nodup) (h : kc ∈ m) : countOf m kc.1 = kc.2 := by
  induction m with
  | nil => simp at h
  | cons kv rest ih =>
    rw [List.map_cons, List.nodup_cons] at hn
    rcases List.mem_cons.1 h with rfl | hrest
    · exact countOf_cons_eq _ _ _ rfl
    · have hkv : ¬kv.1 = kc.1 := by
        intro heq
        exact hn.1 (heq ▸ List.mem_map_of_mem Prod.fst hrest)
      rw [countOf_cons_ne _ _ _ hkv]
      exact ih hn.2 hrest

theorem mem_tally_count {keys : List String} {kc : String × Nat}
    (h : kc ∈ tally keys) : kc.2 = keys.count kc.1 ∧ kc.1 ∈ keys := by
  have h1 := countOf_of_mem (tally_keys_nodup keys) h
  rw [countOf_tally] at h1
  refine ⟨h1.symm, ?_⟩
  rw [← mem_tally_keys]
  exact List.mem_map_of_mem Prod.fst h

theorem topKeysByFreq_sorted (keys : List String) (n : Nat) :
    (topKeysByFreq keys n).Pairwise fun a b => b.2 ≤ a.2 :=
  List.Pairwise.sublist (List.take_sublist n _)
    (stableSort_sorted Prod.snd (tally keys))

theorem topKeysByFreq_keys_nodup (keys : List String) (n : Nat) :
    ((topKeysByFreq keys n).map Prod.fst).Nodup := by
  have hperm : (stableSort (fun y x => decide (x.2 ≤ y.2)) (tally keys)).Perm
      (tally keys) := stableSort_perm _ _
  have hsorted : ((stableSort (fun y x => decide (x.2 ≤ y.2))
      (tally keys)).map Prod.fst).Nodup :=
    ((hperm.map Prod.fst).nodup_iff).2 (tally_keys_nodup keys)
  exact List.Sublist.nodup
    (List.Sublist.map Prod.fst (List.take_sublist n _)) hsorted

theorem topKeysByFreq_length (keys : List String) (n : Nat) :
    (topKeysByFreq keys n).length ≤ n := by
  rw [topKeysByFreq]
  exact List.length_take_le n _

theorem mem_topKeysByFreq_count {keys : List String} {n : Nat}
    {kc : String × Nat} (h : kc ∈ topKeysByFreq keys n) :
    kc.2 = keys.count kc.1 ∧ kc.1 ∈ keys := by
  rw [topKeysByFreq] at h
  exact mem_tally_count
    ((stableSort_perm (fun y x => decide (x.2 ≤ y.2)) (tally keys)).mem_iff.1
      (List.mem_of_mem_take h))

/-- The per-pair loop body of the connection generator selected by
`generateConnections`. -/
def pairConn (t : ConnType) (threshold : ℚ) (p1 p2 : Person) : Option Conn :=
  match t with
  | .education => educationPairConn threshold p1 p2
  | .company => companyPairConn threshold p1 p2
  | .location => locationPairConn threshold p1 p2
  | .skills => skillsPairConn threshold p1 p2

theorem generateConnections_eq_filterMap (people : List Person) (t : ConnType)
    (threshold : ℚ) :
    generateConnections people t threshold =
      (pairsUpper people).filterMap fun pq => pairConn t threshold pq.1 pq.2 := by
  cases t <;> rfl

theorem pairConn_endpoints {t : ConnType} {threshold : ℚ} {p1 p2 : Person}
    {c : Conn} (h : pairConn t threshold p1 p2 = some c) :
    c.source = p1.id ∧ c.target = p2.id := by
  cases t with
  | education =>
    rw [pairConn, educationPairConn] at h
    split at h
    · simp only [ge_iff_le] at h
      split at h
      · injection h with h
        subst h
        exact ⟨rfl, rfl⟩
      · cases h
    · cases h
  | company =>
    rw [pairConn, companyPairConn] at h
    split at h
    · simp only [ge_iff_le] at h
      split at h
      · injection h with h
        subst h
        exact ⟨rfl, rfl⟩
      · cases h
    · cases h
  | location =>
    rw [pairConn, locationPairConn] at h
    split at h
    · injection h with h
      subst h
      exact ⟨rfl, rfl⟩
    · cases h
  | skills =>
    rw [pairConn, skillsPairConn] at h
    split at h
    · simp only [ge_iff_le] at h
      split at h
      · injection h with h
        subst h
        exact ⟨rfl, rfl⟩
      · cases h
    · cases h

theorem pairsUpper_mem_both {l : List α} {pq : α × α}
    (h : pq ∈ pairsUpper l) : pq.1 ∈ l ∧ pq.2 ∈ l := by
  induction l with
  | nil => simp [pairsUpper] at h
  | cons x xs ih =>
    rw [pairsUpper] at h
    rcases List.mem_append.1 h with hmap | hrec
    · rcases List.mem_map.1 hmap with ⟨y, hy, rfl⟩
      exact ⟨List.mem_cons_self x xs, List.mem_cons_of_mem x hy⟩
    · rcases ih hrec with ⟨h1, h2⟩
      exact ⟨List.mem_cons_of_mem x h1, List.mem_cons_of_mem x h2⟩

theorem pairsUpper_getElem {l : List α} {pq : α × α}
    (h : pq ∈ pairsUpper l) :
    ∃ i j : Nat, i < j ∧ l[i]? = some pq.1 ∧ l[j]? = some pq.2 := by
  induction l with
  | nil => simp [pairsUpper] at h
  | cons x xs ih =>
    rw [pairsUpper] at h
    rcases List.mem_append.1 h with hmap | hrec
    · rcases List.mem_map.1 hmap with ⟨y, hy, rfl⟩
      rcases List.mem_iff_getElem?.1 hy with ⟨j, hj⟩
      refine ⟨0, j + 1, Nat.succ_pos j, by simp, ?_⟩
      simpa using hj
    · rcases ih hrec with ⟨i, j, hij, hi, hj⟩
      refine ⟨i + 1, j + 1, Nat.succ_lt_succ hij, ?_, ?_⟩
      · simpa using hi
      · simpa using hj

/-- Unordered clash of two endpoint id pairs. -/
def samePair (a b : Nat × Nat) : Prop :=
  (a.1 = b.1 ∧ a.2 = b.2) ∨ (a.1 = b.2 ∧ a.2 = b.1)

instance (a b : Nat × Nat) : Decidable (samePair a b) :=
  inferInstanceAs (Decidable ((a.1 = b.1 ∧ a.2 = b.2) ∨ (a.1 = b.2 ∧ a.2 = b.1)))

theorem pairsUpper_pairwise_ids (l : List Person)
    (h : (l.map Person.id).Nodup) :
    (pairsUpper l).Pairwise fun pq1 pq2 =>
      ¬samePair (pq1.1.id, pq1.2.id) (pq2.1.id, pq2.2.id) := by
  induction l with
  | nil => simp [pairsUpper]
  | cons x xs ih =>
    rw [List.map_cons, List.nodup_cons] at h
    rw [pairsUpper]
    refine List.pairwise_append.2 ⟨?_, ih h.2, ?_⟩
    · rw [List.pairwise_map]
      have hxs : xs.Pairwise fun y1 y2 => y1.id ≠ y2.id := by
        have := h.2
        rw [List.Nodup, List.pairwise_map] at this
        exact this
      refine List.Pairwise.imp_of_mem ?_ hxs
      intro y1 y2 h1 h2 hne hsame
      rcases hsame with ⟨_, h22⟩ | ⟨h12, _⟩
      · exact hne h22
      · have h12' : x.id = y2.id := h12
        exact h.1 (h12' ▸ List.mem_map_of_mem Person.id h2)
    · intro a ha b hb
      rcases List.mem_map.1 ha with ⟨y, _, rfl⟩
      have hb12 := pairsUpper_mem_both hb
      intro hsame
      rcases hsame with ⟨h11, _⟩ | ⟨h12, _⟩
      · have h11' : x.id = b.1.id := h11
        exact h.1 (h11' ▸ List.mem_map_of_mem Person.id hb12.1)
      · have h12' : x.id = b.2.id := h12
        exact h.1 (h12' ▸ List.mem_map_of_mem Person.id hb12.2)

theorem nodup_map_getElem_ne {l : List Person} (h : (l.map Person.id).Nodup)
    {i j : Nat} (hij : i < j) {p q : Person}
    (hi : l[i]? = some p) (hj : l[j]? = some q) : p.id ≠ q.id := by
  obtain ⟨hjl, hjq⟩ := List.getElem?_eq_some_iff.1 hj
  obtain ⟨hil, hip⟩ := List.getElem?_eq_some_iff.1 hi
  have hp := List.pairwise_iff_getElem.1 h i j (by simpa using hil)
    (by simpa using hjl) hij
  rw [List.getElem_map, List.getElem_map] at hp
  rw [← hip, ← hjq]
  exact hp

theorem filter_mem_toFinset (l1 l2 : List String) :
    (l1.filter fun s => decide (s ∈ l2)).toFinset = l1.toFinset ∩ l2.toFinset := by
  ext x
  simp [List.mem_filter]

theorem length_filter_mem (l1 l2 : List String) (h1 : l1.Nodup) :
    (l1.filter fun s => decide (s ∈ l2)).length =
      (l1.toFinset ∩ l2.toFinset).card := by
  rw [← filter_mem_toFinset l1 l2]
  exact (List.toFinset_card_of_nodup (h1.filter _)).symm

/-- Concrete entity whose education records carry school-id keys; used by
witnesses and counterexamples. -/
def schoolPerson (i : Nat) (keys : List String) : Person :=
  { id := i, name := "P" ++ toString i, firstName := none,
    education := keys.map fun k =>
      { schoolId := some k, school := none, endDate := none },
    companies := [], skills := [], location := none }

/-- Concrete entity with data in every dimension, for witnesses. -/
def wPerson1 : Person :=
  { id := 1, name := "Ada One", firstName := some "Ada",
    education := [⟨some "mit", some "MIT", none⟩, ⟨some "cmu", none, none⟩],
    companies := [⟨some "Acme Inc", "acme"⟩],
    skills := ["lean", "js"],
    location := some ⟨some "Boston", some "US", some "Boston, US"⟩ }

/-- Second concrete entity with data in every dimension. -/
def wPerson2 : Person :=
  { id := 2, name := "Bo Two", firstName := some "Bo",
    education := [⟨some "mit", some "MIT", none⟩],
    companies := [⟨some "Acme", "acme"⟩, ⟨none, "globex"⟩],
    skills := ["js"],
    location := some ⟨some "NYC", some "US", none⟩ }

/-- C1: for every pair of entities whose per-dimension key sequences are
duplicate-free (the spec's data model exposes attribute *sets*, and the
extraction layer guarantees it for companies and skills), the connection
strength computed by the code equals the spec's formula for each dimension:
shared over max set size for education and company, intersection over union
for skills, and the 1 / 0.3 / 0 city/country cascade for location (0 when
either entity has no location). -/
theorem claim1_strengths_match_spec (p1 p2 : Person) :
    ((getPersonEducationSchools p1).Nodup → (getPersonEducationSchools p2).Nodup →
      calculateEducationStrength p1 p2 (sharedSchools p1 p2) =
        specSetStrength (getPersonEducationSchools p1).toFinset
          (getPersonEducationSchools p2).toFinset)
  ∧ (p1.getCompanyNames.Nodup → p2.getCompanyNames.Nodup →
      calculateCompanyStrength p1 p2 (sharedCompanies p1 p2) =
        specSetStrength p1.getCompanyNames.toFinset p2.getCompanyNames.toFinset)
  ∧ (p1.skills.Nodup →
      calculateSkillsStrength p1 p2 (sharedSkills p1 p2) =
        specSkillsStrength p1.skills.toFinset p2.skills.toFinset)
  ∧ calculateLocationStrength p1 p2 =
      specLocationStrength p1.location p2.location := by
  refine ⟨?_, ?_, ?_, ?_⟩
  · intro h1 h2
    have hlen := length_filter_mem (getPersonEducationSchools p1)
      (getPersonEducationSchools p2) h1
    rw [calculateEducationStrength, sharedSchools, specSetStrength, ← hlen]
    have hc1 : (getPersonEducationSchools p1).toFinset.card =
        p1.education.length := by
      rw [List.toFinset_card_of_nodup h1]
      simp [getPersonEducationSchools]
    have hc2 : (getPersonEducationSchools p2).toFinset.card =
        p2.education.length := by
      rw [List.toFinset_card_of_nodup h2]
      simp [getPersonEducationSchools]
    rw [hc1, hc2]
    split
    next hz => rw [hz]; simp
    next => rfl
  · intro h1 h2
    have hlen := length_filter_mem p1.getCompanyNames p2.getCompanyNames h1
    rw [calculateCompanyStrength, sharedCompanies, specSetStrength, ← hlen]
    have hc1 : p1.getCompanyNames.toFinset.card = p1.companies.length := by
      rw [List.toFinset_card_of_nodup h1]
      simp [Person.getCompanyNames]
    have hc2 : p2.getCompanyNames.toFinset.card = p2.companies.length := by
      rw [List.toFinset_card_of_nodup h2]
      simp [Person.getCompanyNames]
    rw [hc1, hc2]
    split
    next hz => rw [hz]; simp
    next => rfl
  · intro h1
    have hlen := length_filter_mem p1.skills p2.skills h1
    rw [calculateSkillsStrength, sharedSkills, specSkillsStrength, ← hlen,
      List.toFinset_append]
    by_cases hz : (p1.skills.filter fun s => decide (s ∈ p2.skills)).length = 0
    · rw [if_pos hz, hz]
      by_cases hu : (p1.skills.toFinset ∪ p2.skills.toFinset).card = 0
      · rw [if_pos hu]
      · rw [if_neg hu]
        simp
    · have hle : (p1.skills.toFinset ∩ p2.skills.toFinset).card ≤
          (p1.skills.toFinset ∪ p2.skills.toFinset).card :=
        Finset.card_le_card (Finset.inter_subset_union)
      have hu : (p1.skills.toFinset ∪ p2.skills.toFinset).card ≠ 0 := by omega
      rw [if_neg hz, if_neg hu,
        max_eq_right (by exact_mod_cast Nat.one_le_iff_ne_zero.2 hu :
          (1 : ℚ) ≤ ((p1.skills.toFinset ∪ p2.skills.toFinset).card : ℚ))]
  · unfold calculateLocationStrength specLocationStrength
    cases p1.location <;> cases p2.location <;> rfl

/-- C1 witness: the four equalities at a concrete pair with duplicate-free
key lists. -/
theorem claim1_witness :
    ((getPersonEducationSchools wPerson1).Nodup ∧
      (getPersonEducationSchools wPerson2).Nodup ∧
      wPerson1.getCompanyNames.Nodup ∧ wPerson2.getCompanyNames.Nodup ∧
      wPerson1.skills.Nodup) ∧
    calculateEducationStrength wPerson1 wPerson2
        (sharedSchools wPerson1 wPerson2) =
      specSetStrength (getPersonEducationSchools wPerson1).toFinset
        (getPersonEducationSchools wPerson2).toFinset ∧
    calculateCompanyStrength wPerson1 wPerson2
        (sharedCompanies wPerson1 wPerson2) =
      specSetStrength wPerson1.getCompanyNames.toFinset
        wPerson2.getCompanyNames.toFinset ∧
    calculateSkillsStrength wPerson1 wPerson2
        (sharedSkills wPerson1 wPerson2) =
      specSkillsStrength wPerson1.skills.toFinset wPerson2.skills.toFinset ∧
    calculateLocationStrength wPerson1 wPerson2 =
      specLocationStrength wPerson1.location wPerson2.location :=
  ⟨⟨by decide, by decide, by decide, by decide, by decide⟩,
    (claim1_strengths_match_spec wPerson1 wPerson2).1 (by decide) (by decide),
    (claim1_strengths_match_spec wPerson1 wPerson2).2.1 (by decide) (by decide),
    (claim1_strengths_match_spec wPerson1 wPerson2).2.2.1 (by decide),
    (claim1_strengths_match_spec wPerson1 wPerson2).2.2.2⟩

/-- C3 counterexample: two populations that are permutations of one another
(hence identical key→count multisets) yield different top rankings, so the
ranking is not a function of the multiset and the "sa" < "sb" count tie is
not broken by key order. -/
theorem claim3_counterexample :
    (([schoolPerson 2 ["sb"], schoolPerson 1 ["sa"]] : List Person).Perm
      [schoolPerson 1 ["sa"], schoolPerson 2 ["sb"]])
  ∧ getTopSchools [schoolPerson 1 ["sa"], schoolPerson 2 ["sb"]] 2 ≠
      getTopSchools [schoolPerson 2 ["sb"], schoolPerson 1 ["sa"]] 2 := by
  constructor
  · exact List.Perm.swap _ _ _
  · decide

/-- C3 (amended): for every population and dimension the top-N ranking is
sorted by count descending with the correct per-key totals, distinct keys and
at most N entries; count ties, however, keep the first-encounter order of the
population's key stream (JS stable sort with a count-only comparator), so the
ranking is deterministic only relative to the entity iteration order, not a
function of the key→count multiset alone. -/
theorem claim3_topRanking_sorted_counts (t : ConnType) (people : List Person)
    (n : Nat) :
    (getTopForType t people n).Pairwise (fun a b => b.2 ≤ a.2)
  ∧ ((getTopForType t people n).map Prod.fst).Nodup
  ∧ (getTopForType t people n).length ≤ n
  ∧ ∀ kc ∈ getTopForType t people n,
      kc.2 = (dimensionKeyStream t people).count kc.1 ∧
        kc.1 ∈ dimensionKeyStream t people := by
  have he : getTopForType t people n =
      topKeysByFreq (dimensionKeyStream t people) n := by
    cases t <;> rfl
  rw [he]
  exact ⟨topKeysByFreq_sorted _ _, topKeysByFreq_keys_nodup _ _,
    topKeysByFreq_length _ _, fun kc h => mem_topKeysByFreq_count h⟩

/-- C3 witness: the amended ranking properties evaluated on a concrete
population, with the membership hypothesis discharged at the top entry. -/
theorem claim3_witness :
    (("mit", 2) ∈ getTopForType .education
      [schoolPerson 1 ["mit"], schoolPerson 2 ["mit"], schoolPerson 3 ["sb"]] 2)
  ∧ (("mit", 2).2 = (dimensionKeyStream .education
        [schoolPerson 1 ["mit"], schoolPerson 2 ["mit"], schoolPerson 3 ["sb"]]).count
          ("mit", 2).1 ∧
      ("mit", 2).1 ∈ dimensionKeyStream .education
        [schoolPerson 1 ["mit"], schoolPerson 2 ["mit"], schoolPerson 3 ["sb"]]) :=
  ⟨by decide,
    (claim3_topRanking_sorted_counts .education
      [schoolPerson 1 ["mit"], schoolPerson 2 ["mit"], schoolPerson 3 ["sb"]]
      2).2.2.2 ("mit", 2) (by decide)⟩

/-- C7 (bug evidence): with two entities sharing nothing and
includeIsolated=false the retained set is empty and the pairwise variant's
average field is the unguarded `0/0` — non-finite (`none`) — where the spec's
formula `edges / max(1, entities)` yields `0`. -/
theorem claim7_averageDegree_nan_on_empty :
    (generateNetworkJs defaults12 (fun _ => 0)
        [schoolPerson 1 ["a"], schoolPerson 2 ["b"]]
        ⟨.education, 1/10, 75, false, 12⟩).metadata.averageConnections = none
  ∧ specAverageDegree 0 0 = 0 := by
  constructor
  · rfl
  · rw [specAverageDegree]
    norm_num

/-- C9: after the per-tick boundary clamp, every node whose diameter fits the
clamping rectangle has both coordinates inside
`[radius, innerDimension - radius]`; the force-integration step is a
completely arbitrary function, so this holds for any physics parameter
combination within (or outside) the documented bounds, and in particular in
the settled state. -/
theorem claim9_tick_clamp_in_bounds (F : List SimNode → List SimNode)
    (innerWidth innerHeight : ℚ) (nodes : List SimNode) :
    ∀ d ∈ simTick F innerWidth innerHeight nodes,
      2 * d.size ≤ innerWidth → 2 * d.size ≤ innerHeight →
        d.size ≤ d.x ∧ d.x ≤ innerWidth - d.size ∧
        d.size ≤ d.y ∧ d.y ≤ innerHeight - d.size := by
  intro d hd
  rw [simTick, keepNodesInBounds] at hd
  rcases List.mem_map.1 hd with ⟨e, _, rfl⟩
  rw [clampNode]
  intro hw hh
  refine ⟨le_max_left _ _, ?_, le_max_left _ _, ?_⟩
  · exact max_le (by linarith [hw]) (min_le_left _ _)
  · exact max_le (by linarith [hh]) (min_le_left _ _)

/-- C9 witness: one tick over a single out-of-bounds node on a 300×300
clamping area lands at (10, 290), inside `[10, 290]` in both coordinates. -/
theorem claim9_witness :
    ((⟨10, 10, 290⟩ : SimNode) ∈ simTick id 300 300 [⟨10, -5, 400⟩] ∧
      2 * (⟨10, 10, 290⟩ : SimNode).size ≤ 300) ∧
    ((⟨10, 10, 290⟩ : SimNode).size ≤ (⟨10, 10, 290⟩ : SimNode).x ∧
      (⟨10, 10, 290⟩ : SimNode).x ≤ 300 - (⟨10, 10, 290⟩ : SimNode).size ∧
      (⟨10, 10, 290⟩ : SimNode).size ≤ (⟨10, 10, 290⟩ : SimNode).y ∧
      (⟨10, 10, 290⟩ : SimNode).y ≤ 300 - (⟨10, 10, 290⟩ : SimNode).size) := by
  have hmem : (⟨10, 10, 290⟩ : SimNode) ∈ simTick id 300 300 [⟨10, -5, 400⟩] := by
    rw [simTick, keepNodesInBounds]
    simp only [id, List.map_cons, List.map_nil, clampNode, List.mem_singleton,
      SimNode.mk.injEq]
    norm_num
  exact ⟨⟨hmem, by norm_num⟩,
    claim9_tick_clamp_in_bounds id 300 300 [⟨10, -5, 400⟩] ⟨10, 10, 290⟩ hmem
      (by norm_num) (by norm_num)⟩

/-- C10: in every dimension, at every threshold, over a population with
distinct ids, the pairwise connection list has no self-connection, each
connection's source appears strictly before its target in the retained-entity
order, and no two list entries cover the same unordered id pair. -/
theorem claim10_pairwise_connections_invariants (people : List Person)
    (t : ConnType) (threshold : ℚ)
    (hids : (people.map Person.id).Nodup) :
    (∀ c ∈ generateConnections people t threshold,
        c.source ≠ c.target ∧
        ∃ i j : Nat, i < j ∧ (∃ p, people[i]? = some p ∧ p.id = c.source) ∧
          ∃ q, people[j]? = some q ∧ q.id = c.target)
  ∧ (generateConnections people t threshold).Pairwise fun c1 c2 =>
      ¬samePair (c1.source, c1.target) (c2.source, c2.target) := by
  constructor
  · intro c hc
    rw [generateConnections_eq_filterMap] at hc
    rcases List.mem_filterMap.1 hc with ⟨pq, hpq, hf⟩
    obtain ⟨hs, ht⟩ := pairConn_endpoints hf
    obtain ⟨i, j, hij, hi, hj⟩ := pairsUpper_getElem hpq
    refine ⟨?_, i, j, hij, ⟨pq.1, hi, hs.symm⟩, ⟨pq.2, hj, ht.symm⟩⟩
    rw [hs, ht]
    exact nodup_map_getElem_ne hids hij hi hj
  · rw [generateConnections_eq_filterMap]
    refine List.Pairwise.filterMap _ ?_ (pairsUpper_pairwise_ids people hids)
    intro pq1 pq2 hne b hb b' hb'
    obtain ⟨hs, ht⟩ := pairConn_endpoints (Option.mem_def.1 hb)
    obtain ⟨hs', ht'⟩ := pairConn_endpoints (Option.mem_def.1 hb')
    intro hsame
    apply hne
    rw [samePair] at hsame ⊢
    rcases hsame with ⟨h1, h2⟩ | ⟨h1, h2⟩
    · refine Or.inl ⟨?_, ?_⟩
      · show pq1.1.id = pq2.1.id
        rw [← hs, ← hs']
        exact h1
      · show pq1.2.id = pq2.2.id
        rw [← ht, ← ht']
        exact h2
    · refine Or.inr ⟨?_, ?_⟩
      · show pq1.1.id = pq2.2.id
        rw [← hs, ← ht']
        exact h1
      · show pq1.2.id = pq2.1.id
        rw [← ht, ← hs']
        exact h2

/-- C10 witness: the invariants evaluated on a concrete two-entity population
with one shared school. -/
theorem claim10_witness :
    (([schoolPerson 1 ["mit"], schoolPerson 2 ["mit"]].map Person.id).Nodup) ∧
    ((∀ c ∈ generateConnections [schoolPerson 1 ["mit"], schoolPerson 2 ["mit"]]
          .education (1/10),
        c.source ≠ c.target ∧
        ∃ i j : Nat, i < j ∧
          (∃ p, [schoolPerson 1 ["mit"], schoolPerson 2 ["mit"]][i]? = some p ∧
            p.id = c.source) ∧
          ∃ q, [schoolPerson 1 ["mit"], schoolPerson 2 ["mit"]][j]? = some q ∧
            q.id = c.target)
    ∧ (generateConnections [schoolPerson 1 ["mit"], schoolPerson 2 ["mit"]]
          .education (1/10)).Pairwise fun c1 c2 =>
        ¬samePair (c1.source, c1.target) (c2.source, c2.target)) :=
  ⟨by decide,
    claim10_pairwise_connections_invariants
      [schoolPerson 1 ["mit"], schoolPerson 2 ["mit"]] .education (1/10)
      (by decide)⟩

theorem getTopForType_length (t : ConnType) (people : List Person) (n : Nat) :
    (getTopForType t people n).length ≤ n := by
  cases t <;> exact topKeysByFreq_length _ _

theorem getTopForType_keys_nodup (t : ConnType) (people : List Person)
    (n : Nat) : ((getTopForType t people n).map Prod.fst).Nodup := by
  cases t <;> exact topKeysByFreq_keys_nodup _ _

theorem mapSet_fresh (k v : String) (m : List (String × String))
    (h : k ∉ m.map Prod.fst) : mapSet k v m = m ++ [(k, v)] := by
  induction m with
  | nil => rfl
  | cons kv rest ih =>
    rw [List.map_cons, List.mem_cons] at h
    push_neg at h
    rw [mapSet, if_neg (fun he => h.1 he.symm), ih h.2, List.cons_append]

theorem foldl_mapSet_fresh (xs m0 : List (String × String))
    (hd : ∀ k ∈ xs.map Prod.fst, k ∉ m0.map Prod.fst)
    (hn : (xs.map Prod.fst).Nodup) :
    xs.foldl (fun m kv => mapSet kv.1 kv.2 m) m0 = m0 ++ xs := by
  induction xs generalizing m0 with
  | nil => simp
  | cons kv rest ih =>
    rw [List.map_cons, List.nodup_cons] at hn
    rw [List.foldl_cons,
      mapSet_fresh kv.1 kv.2 m0 (hd kv.1 (by simp)),
      ih (m0 ++ [(kv.1, kv.2)]) ?_ hn.2]
    · simp
    · intro k hk
      rw [List.map_append, List.mem_append]
      push_neg
      refine ⟨hd k (by simp [hk]), ?_⟩
      simp only [List.map_cons, List.map_nil, List.mem_singleton]
      intro he
      exact hn.1 (he ▸ hk)

theorem mem_of_mapGet_eq_some {m : List (String × String)} {k v : String}
    (h : mapGet m k = some v) : (k, v) ∈ m := by
  rw [mapGet] at h
  rcases Option.map_eq_some'.1 h with ⟨kv, hfind, hv⟩
  have hmem := List.mem_of_find?_eq_some hfind
  have hpred := List.find?_some hfind
  rw [beq_iff_eq] at hpred
  rw [← hv, ← hpred]
  exact hmem

/-- The bipartite color map, explicitly: each top group key paired with the
palette color at its rank (no key ever reaches the overflow branch because
the top list is already capped at the palette size). -/
theorem getGroupColorsBip_map_eq (cfg : Defaults) (people : List Person)
    (t : ConnType) (topN : Nat) :
    (getGroupColorsBip cfg people t topN).1 =
      (getGroupColorsBip cfg people t topN).2.enum.map fun ig =>
        (ig.2.1, cfg.colors.getD ig.1 "") := by
  rw [getGroupColorsBip]
  set e := min topN cfg.colors.length with he
  set tg := getTopGroupsForType cfg people t e with htg
  have hlen : tg.length ≤ e := by
    rw [htg, getTopGroupsForType]
    calc (getTopForType t people (min e cfg.colors.length)).length
        ≤ min e cfg.colors.length := getTopForType_length _ _ _
      _ ≤ e := min_le_left _ _
  have hbody : ∀ (m : List (String × String)) (ig : Nat × (String × Nat)),
      ig ∈ tg.enum →
      (if ig.1 < e then mapSet ig.2.1 (cfg.colors.getD ig.1 "") m
        else mapSet ig.2.1 cfg.otherColor m) =
      mapSet ig.2.1 (cfg.colors.getD ig.1 "") m := by
    intro m ig hig
    have hi : ig.1 < tg.length := by
      obtain ⟨hlt, -⟩ :=
        List.getElem?_eq_some_iff.1 (List.mem_enum_iff_getElem?.1 hig)
      exact hlt
    rw [if_pos (lt_of_lt_of_le hi hlen)]
  calc tg.enum.foldl
        (fun m ig =>
          if ig.1 < e then mapSet ig.2.1 (cfg.colors.getD ig.1 "") m
          else mapSet ig.2.1 cfg.otherColor m) []
      = tg.enum.foldl (fun m ig => mapSet ig.2.1 (cfg.colors.getD ig.1 "") m)
          [] := List.foldl_ext _ _ _ hbody
      _ = (tg.enum.map fun ig => (ig.2.1, cfg.colors.getD ig.1 "")).foldl
          (fun m kv => mapSet kv.1 kv.2 m) [] := by
        rw [List.foldl_map]
      _ = (tg.enum.map fun ig => (ig.2.1, cfg.colors.getD ig.1 "")) := by
        rw [foldl_mapSet_fresh _ _ (by simp) ?_]
        · simp
        · have hmaps : ((tg.enum.map fun ig => (ig.2.1, cfg.colors.getD ig.1 "")).map
              Prod.fst) = tg.map Prod.fst := by
            rw [List.map_map]
            show tg.enum.map (Prod.fst ∘ Prod.snd) = tg.map Prod.fst
            rw [← List.map_map, List.enum_map_snd]
          rw [hmaps, htg, getTopGroupsForType]
          exact getTopForType_keys_nodup _ _ _

/-- Thirteen entities with distinct single schools, for the C2
counterexample. -/
def people13 : List Person :=
  (List.range 13).map fun i => schoolPerson i ["s" ++ toString i]

/-- C2 counterexample: the pairwise variant's getGroupColors does not clamp a
requested topN of 13 to its 12-color palette — the palette index wraps
(`colors[index % colors.length]`), so the distinct group keys "s0" and "s12"
both receive the non-overflow palette color "#EF4444". -/
theorem claim2_counterexample :
    mapGet (getGroupColorsJs defaults12 people13 .education 13).1 "s0" =
        some "#EF4444"
  ∧ mapGet (getGroupColorsJs defaults12 people13 .education 13).1 "s12" =
        some "#EF4444"
  ∧ "#EF4444" ≠ defaults12.otherColor
  ∧ ("s0" : String) ≠ "s12" :=
  ⟨rfl, rfl, by decide, by decide⟩

/-- C2 (amended): the bipartite variant does clamp — its key→color map for a
requested topN equals the one for min(topN, palette size) — and, for a
duplicate-free palette, it never assigns one non-overflow color to two
distinct group keys.  The pairwise variant's getGroupColors instead applies
no clamp and reuses palette colors modulo the palette size once the rank
passes the palette (see the counterexample). -/
theorem claim2_bipartite_colors_injective_and_clamped (cfg : Defaults)
    (people : List Person) (t : ConnType) (topN : Nat)
    (hpal : cfg.colors.Nodup) :
    (getGroupColorsBip cfg people t topN).1 =
      (getGroupColorsBip cfg people t (min topN cfg.colors.length)).1
  ∧ ∀ k1 k2 c, mapGet (getGroupColorsBip cfg people t topN).1 k1 = some c →
      mapGet (getGroupColorsBip cfg people t topN).1 k2 = some c →
      c ≠ cfg.otherColor → k1 = k2 := by
  constructor
  · rw [getGroupColorsBip, getGroupColorsBip]
    simp [min_assoc]
  · intro k1 k2 c h1 h2 hc
    have hm1 := mem_of_mapGet_eq_some h1
    have hm2 := mem_of_mapGet_eq_some h2
    rw [getGroupColorsBip_map_eq] at hm1 hm2
    rcases List.mem_map.1 hm1 with ⟨ig1, hig1, heq1⟩
    rcases List.mem_map.1 hm2 with ⟨ig2, hig2, heq2⟩
    obtain ⟨hk1, hc1⟩ := Prod.mk.injEq _ _ _ _ |>.mp heq1
    obtain ⟨hk2, hc2⟩ := Prod.mk.injEq _ _ _ _ |>.mp heq2
    obtain ⟨hb1, -⟩ :=
      List.getElem?_eq_some_iff.1 (List.mem_enum_iff_getElem?.1 hig1)
    obtain ⟨hb2, -⟩ :=
      List.getElem?_eq_some_iff.1 (List.mem_enum_iff_getElem?.1 hig2)
    have hlen : (getGroupColorsBip cfg people t topN).2.length ≤
        cfg.colors.length := by
      calc (getGroupColorsBip cfg people t topN).2.length
          ≤ min (min topN cfg.colors.length) cfg.colors.length :=
            getTopForType_length _ _ _
        _ ≤ cfg.colors.length := min_le_right _ _
    have hi1 : ig1.1 < cfg.colors.length := lt_of_lt_of_le hb1 hlen
    have hi2 : ig2.1 < cfg.colors.length := lt_of_lt_of_le hb2 hlen
    rw [List.getD_eq_getElem cfg.colors "" hi1] at hc1
    rw [List.getD_eq_getElem cfg.colors "" hi2] at hc2
    have hij : ig1.1 = ig2.1 := by
      have : cfg.colors[ig1.1] = cfg.colors[ig2.1] := by rw [hc1, hc2]
      exact (List.Nodup.getElem_inj_iff hpal).1 this
    have hg : ig1.2 = ig2.2 := by
      have e1 := List.mem_enum_iff_getElem?.1 hig1
      have e2 := List.mem_enum_iff_getElem?.1 hig2
      rw [hij] at e1
      rw [e1] at e2
      injection e2
    rw [← hk1, ← hk2, hg]

/-- C2 witness: the clamp equation and non-overflow injectivity evaluated for
the 15-color palette on a one-entity population. -/
theorem claim2_witness :
    defaults15.colors.Nodup
  ∧ mapGet (getGroupColorsBip defaults15 [schoolPerson 1 ["mit"]]
        .education 20).1 "mit" = some "#800000"
  ∧ "#800000" ≠ defaults15.otherColor
  ∧ (getGroupColorsBip defaults15 [schoolPerson 1 ["mit"]] .education 20).1 =
      (getGroupColorsBip defaults15 [schoolPerson 1 ["mit"]] .education
        (min 20 defaults15.colors.length)).1
  ∧ ("mit" : String) = "mit" :=
  ⟨by decide, rfl, by decide,
    (claim2_bipartite_colors_injective_and_clamped defaults15
      [schoolPerson 1 ["mit"]] .education 20 (by decide)).1,
    (claim2_bipartite_colors_injective_and_clamped defaults15
      [schoolPerson 1 ["mit"]] .education 20 (by decide)).2
      "mit" "mit" "#800000" rfl rfl (by decide)⟩

/-- Modelled from the spec: in pairwise mode a node's color is the palette
color of the entity's highest-ranked featured group (ties broken by the
lowest rank index, i.e. getBestRankingItem), or the overflow color when the
entity belongs to no featured group. -/
def specNodeColor (cfg : Defaults) (groupColors : List (String × String))
    (cachedTop : List (String × Nat)) (items : List String) : String :=
  match getBestRankingItem items cachedTop with
  | some best => (mapGet groupColors best).getD cfg.otherColor
  | none => cfg.otherColor

/-- Five entities for the C8 counterexample: schools "A" (rank 0) and "B"
(rank 1) tie on member count and entity 5 lists "B" before "A". -/
def peopleC8 : List Person :=
  [schoolPerson 1 ["A"], schoolPerson 2 ["A"], schoolPerson 3 ["B"],
   schoolPerson 4 ["B"], schoolPerson 5 ["B", "A"]]

/-- C8 counterexample: entity 5 belongs to both featured groups, its
highest-ranked one is "A" (color "#EF4444"), yet its node is colored
"#F97316" — the color of "B", the first featured group in the entity's own
attribute order. -/
theorem claim8_counterexample :
    ((generateNetworkJs defaults12 (fun _ => 0) peopleC8
        ⟨.education, 1/10, 75, true, 2⟩).nodes.map
          (fun n => (n.id, n.color)))[4]? = some (5, "#F97316")
  ∧ specNodeColor defaults12
      (getGroupColorsJs defaults12 peopleC8 .education 2).1
      (getGroupColorsJs defaults12 peopleC8 .education 2).2
      (personItems .education (schoolPerson 5 ["B", "A"])) = "#EF4444"
  ∧ ("#F97316" : String) ≠ "#EF4444" :=
  ⟨rfl, rfl, by decide⟩

/-- C8 (amended): a pairwise node's color is the color of the *first*
featured item in the entity's own attribute order (`personTopItems[0]`), the
overflow color when it has none; the node's `group` field, separately, does
use the highest-ranked featured group via getPersonGroup.  `generateNodes`
maps this node builder over the retained population. -/
theorem claim8_node_color_first_featured (cfg : Defaults) (log : ℚ → ℚ)
    (groupColors : List (String × String)) (t : ConnType)
    (connections : List Conn) (cachedTop topItems : List (String × Nat))
    (person : Person) :
    (mkVisNode cfg log groupColors t connections cachedTop topItems
        person).color =
      (match (personItems t person).filter
          (fun item => topItems.any fun g => g.1 == item) with
        | [] => cfg.otherColor
        | firstItem :: _ => (mapGet groupColors firstItem).getD cfg.otherColor)
  ∧ (mkVisNode cfg log groupColors t connections cachedTop topItems
        person).group = (getPersonGroup cachedTop person t).key := by
  constructor
  · rw [mkVisNode]
    cases hfl : (personItems t person).filter
        (fun item => topItems.any fun g => g.1 == item) with
    | nil => simp [hfl]
    | cons firstItem rest =>
      cases rest with
      | nil => simp [hfl]
      | cons second more => simp [hfl]
  · rfl

theorem personGroupLinks_source {cfg : Defaults} {t : ConnType}
    {tk : List String} {gc : List (String × String)} {person : Person}
    {l : BipLink} (h : l ∈ personGroupLinks cfg t tk gc person) :
    l.source = person.id := by
  rw [personGroupLinks] at h
  rcases List.mem_filterMap.1 h with ⟨item, -, hf⟩
  split at hf
  · injection hf with hf
    rw [← hf]
  · cases hf

theorem personGroupLinks_map_groupKey (cfg : Defaults) (t : ConnType)
    (tk : List String) (gc : List (String × String)) (person : Person) :
    (personGroupLinks cfg t tk gc person).map BipLink.groupKey =
      (personItems t person).filter fun item => decide (item ∈ tk) := by
  rw [personGroupLinks]
  induction personItems t person with
  | nil => rfl
  | cons x xs ih =>
    by_cases hx : x ∈ tk
    · simp [List.filterMap_cons, hx, ih]
    · simp [List.filterMap_cons, hx, ih]

theorem filter_flatMap (l : List α) (f : α → List β) (p : β → Bool) :
    (l.flatMap f).filter p = l.flatMap fun x => (f x).filter p := by
  induction l with
  | nil => rfl
  | cons x xs ih =>
    rw [List.flatMap_cons, List.flatMap_cons, List.filter_append, ih]

theorem links_filter_source (cfg : Defaults) (t : ConnType) (tk : List String)
    (gc : List (String × String)) (people : List Person) (person : Person)
    (hmem : person ∈ people) (hids : (people.map Person.id).Nodup) :
    (people.flatMap (personGroupLinks cfg t tk gc)).filter
        (fun l => l.source == person.id) =
      personGroupLinks cfg t tk gc person := by
  induction people with
  | nil => cases hmem
  | cons q rest ih =>
    rw [List.map_cons, List.nodup_cons] at hids
    rw [List.flatMap_cons, List.filter_append]
    rcases List.mem_cons.1 hmem with rfl | hrest
    · have h1 : (personGroupLinks cfg t tk gc person).filter
          (fun l => l.source == person.id) =
          personGroupLinks cfg t tk gc person := by
        rw [List.filter_eq_self]
        intro l hl
        rw [personGroupLinks_source hl]
        exact beq_self_eq_true _
      have h2 : (rest.flatMap (personGroupLinks cfg t tk gc)).filter
          (fun l => l.source == person.id) = [] := by
        rw [List.filter_eq_nil_iff]
        intro l hl
        rcases List.mem_flatMap.1 hl with ⟨q', hq', hlq⟩
        rw [personGroupLinks_source hlq, beq_iff_eq]
        intro he
        exact hids.1 (he ▸ List.mem_map_of_mem Person.id hq')
      rw [h1, h2, List.append_nil]
    · have h1 : (personGroupLinks cfg t tk gc q).filter
          (fun l => l.source == person.id) = [] := by
        rw [List.filter_eq_nil_iff]
        intro l hl
        rw [personGroupLinks_source hl, beq_iff_eq]
        intro he
        exact hids.1 (he ▸ List.mem_map_of_mem Person.id hrest)
      rw [h1, List.nil_append]
      exact ih hrest hids.2

/-- C4: in bipartite mode, over a population with distinct ids, an entity
with duplicate-free attribute keys gets exactly one link per distinct
featured group it belongs to — the links with it as source list exactly its
featured items, which are pairwise distinct — and when it belongs to k ≥ 2
featured groups its node carries exactly the k corresponding secondary
colors. -/
theorem claim4_bipartite_one_edge_per_featured_group (cfg : Defaults)
    (t : ConnType) (topGroups : List (String × Nat))
    (groupColors : List (String × String)) (people : List Person)
    (person : Person) (hmem : person ∈ people)
    (hids : (people.map Person.id).Nodup)
    (hitems : (personItems t person).Nodup) :
    ((generatePersonToGroupLinks cfg people t topGroups groupColors).filter
        (fun l => l.source == person.id)).map BipLink.groupKey =
      (personItems t person).filter
        (fun item => decide (item ∈ topGroups.map Prod.fst))
  ∧ ((personItems t person).filter
      (fun item => decide (item ∈ topGroups.map Prod.fst))).Nodup
  ∧ (2 ≤ ((personItems t person).filter
        (fun item => decide (item ∈ topGroups.map Prod.fst))).length →
      (mkBipPersonNode cfg t (topGroups.map Prod.fst) groupColors
          person).multiColors =
        some (((personItems t person).filter
            (fun item => decide (item ∈ topGroups.map Prod.fst))).map
          fun item => (mapGet groupColors item).getD cfg.otherColor)) := by
  refine ⟨?_, hitems.filter _, ?_⟩
  · rw [generatePersonToGroupLinks,
      links_filter_source cfg t (topGroups.map Prod.fst) groupColors people
        person hmem hids,
      personGroupLinks_map_groupKey]
  · intro h2
    rw [mkBipPersonNode]
    cases hfl : (personItems t person).filter
        (fun item => decide (item ∈ topGroups.map Prod.fst)) with
    | nil =>
      rw [hfl] at h2
      simp at h2
    | cons a rest =>
      cases rest with
      | nil =>
        rw [hfl] at h2
        simp at h2
      | cons b more => simp [hfl]

/-- C4 witness: the spec's five-entity, topN=2 scenario — entity 5 belongs to
both featured groups, produces exactly one link per group and carries their
two colors. -/
theorem claim4_witness :
    (schoolPerson 5 ["B", "A"] ∈ peopleC8 ∧
      (peopleC8.map Person.id).Nodup ∧
      (personItems .education (schoolPerson 5 ["B", "A"])).Nodup ∧
      2 ≤ ((personItems .education (schoolPerson 5 ["B", "A"])).filter
        (fun item =>
          decide (item ∈ ([("A", 3), ("B", 3)] :
            List (String × Nat)).map Prod.fst))).length) ∧
    ((generatePersonToGroupLinks defaults15 peopleC8 .education
        [("A", 3), ("B", 3)] [("A", "#800000"), ("B", "#9A6324")]).filter
          (fun l => l.source == (schoolPerson 5 ["B", "A"]).id)).map
        BipLink.groupKey =
      (personItems .education (schoolPerson 5 ["B", "A"])).filter
        (fun item =>
          decide (item ∈ ([("A", 3), ("B", 3)] :
            List (String × Nat)).map Prod.fst)) ∧
    (mkBipPersonNode defaults15 .education
        (([("A", 3), ("B", 3)] : List (String × Nat)).map Prod.fst)
        [("A", "#800000"), ("B", "#9A6324")]
        (schoolPerson 5 ["B", "A"])).multiColors =
      some (((personItems .education (schoolPerson 5 ["B", "A"])).filter
          (fun item =>
            decide (item ∈ ([("A", 3), ("B", 3)] :
              List (String × Nat)).map Prod.fst))).map
        fun item =>
          (mapGet [("A", "#800000"), ("B", "#9A6324")] item).getD
            defaults15.otherColor) :=
  ⟨⟨by decide, by decide, by decide, by decide⟩,
    (claim4_bipartite_one_edge_per_featured_group defaults15 .education
      [("A", 3), ("B", 3)] [("A", "#800000"), ("B", "#9A6324")] peopleC8
      (schoolPerson 5 ["B", "A"]) (by decide) (by decide) (by decide)).1,
    (claim4_bipartite_one_edge_per_featured_group defaults15 .education
      [("A", 3), ("B", 3)] [("A", "#800000"), ("B", "#9A6324")] peopleC8
      (schoolPerson 5 ["B", "A"]) (by decide) (by decide) (by decide)).2.2
      (by decide)⟩

theorem eq_of_mem_nodup_ids {l : List Person} (h : (l.map Person.id).Nodup)
    {p q : Person} (hp : p ∈ l) (hq : q ∈ l) (he : p.id = q.id) : p = q :=
  List.inj_on_of_nodup_map h hp hq he

/-- C5: in bipartite mode with includeIsolated=false, over a candidate
population (the people entering bipartite node generation) with distinct
ids, an entity with zero featured-group memberships contributes no node and
no link to the result, and the metadata's isolated count equals the
candidate count minus the number of returned entity nodes. -/
theorem claim5_isolated_excluded (cfg : Defaults) (log : ℚ → ℚ)
    (people : List Person) (opts : NetworkOptions)
    (hiso : opts.includeIsolated = false)
    (hids : ((filteredPeopleFor people opts).map Person.id).Nodup)
    (person : Person) (hp : person ∈ filteredPeopleFor people opts)
    (hno : (personItems opts.connectionType person).filter
        (fun item =>
          decide (item ∈ (bipTopGroups cfg people opts).map Prod.fst)) = []) :
    (∀ node ∈ (generateNetworkBip cfg log people opts).nodes,
        node.id ≠ NodeId.person person.id)
  ∧ (∀ l ∈ (generateNetworkBip cfg log people opts).links,
        l.source ≠ person.id)
  ∧ (generateNetworkBip cfg log people opts).metadata.isolatedPeople =
      (filteredPeopleFor people opts).length -
        ((generateNetworkBip cfg log people opts).nodes.filter
          (fun n => n.type == "person")).length := by
  have hfinal : bipFinalPeopleNodes cfg log people opts =
      ((filteredPeopleFor people opts).map
        (mkBipPersonNode cfg opts.connectionType
          ((bipTopGroups cfg people opts).map Prod.fst)
          (bipGroupColorMap cfg people opts))).filter
        (fun node => !node.isIsolated) := by
    rw [bipFinalPeopleNodes, hiso]
    rfl
  have hisoP : (mkBipPersonNode cfg opts.connectionType
      ((bipTopGroups cfg people opts).map Prod.fst)
      (bipGroupColorMap cfg people opts) person).isIsolated = true := by
    show (((personItems opts.connectionType person).filter
      (fun item =>
        decide (item ∈ (bipTopGroups cfg people opts).map Prod.fst))).length
        == 0) = true
    rw [hno]
    rfl
  have hne : ∀ q ∈ filteredPeopleFor people opts,
      (mkBipPersonNode cfg opts.connectionType
        ((bipTopGroups cfg people opts).map Prod.fst)
        (bipGroupColorMap cfg people opts) q).isIsolated = false →
      q.id ≠ person.id := by
    intro q hq hniso he
    have hqp : q = person := eq_of_mem_nodup_ids hids hq hp he
    rw [hqp, hisoP] at hniso
    cases hniso
  refine ⟨?_, ?_, ?_⟩
  · intro node hn heq
    rcases List.mem_append.1 hn with hf | hg
    · rw [hfinal] at hf
      obtain ⟨hmm, hpred⟩ := List.mem_filter.1 hf
      rcases List.mem_map.1 hmm with ⟨q, hq, rfl⟩
      have hqid : q.id = person.id := by
        have hpe : NodeId.person q.id = NodeId.person person.id := heq
        injection hpe
      exact hne q hq (by simpa using hpred) hqid
    · have hg' : node ∈ (bipTopGroups cfg people opts).map
          (mkBipGroupNode cfg log (filteredPeopleFor people opts)
            opts.connectionType (bipGroupColorMap cfg people opts)) := hg
      rcases List.mem_map.1 hg' with ⟨g, -, rfl⟩
      exact NodeId.noConfusion heq
  · intro l hl heq
    have hl' : l ∈ ((bipFinalPeopleNodes cfg log people opts).filterMap
        BipNode.person).flatMap
        (personGroupLinks cfg opts.connectionType
          ((bipTopGroups cfg people opts).map Prod.fst)
          (bipGroupColorMap cfg people opts)) := hl
    rcases List.mem_flatMap.1 hl' with ⟨q, hq, hlq⟩
    rcases List.mem_filterMap.1 hq with ⟨node, hnode, hnp⟩
    rw [hfinal] at hnode
    obtain ⟨hmm, hpred⟩ := List.mem_filter.1 hnode
    rcases List.mem_map.1 hmm with ⟨q', hq', rfl⟩
    have hq'q : q' = q := by
      have hsq : some q' = some q := hnp
      injection hsq
    have hsource : l.source = q'.id := by
      rw [hq'q]
      exact personGroupLinks_source hlq
    exact hne q' hq' (by simpa using hpred) (hsource ▸ heq)
  · have hB : ((bipFinalPeopleNodes cfg log people opts ++
        bipGroupNodes cfg log people opts).filter
          (fun n => n.type == "person")) =
        bipFinalPeopleNodes cfg log people opts := by
      rw [List.filter_append]
      have h1 : (bipFinalPeopleNodes cfg log people opts).filter
          (fun n => n.type == "person") =
          bipFinalPeopleNodes cfg log people opts := by
        rw [List.filter_eq_self]
        intro node hnode
        rw [hfinal] at hnode
        obtain ⟨hmm, -⟩ := List.mem_filter.1 hnode
        rcases List.mem_map.1 hmm with ⟨q, -, rfl⟩
        rfl
      have h2 : (bipGroupNodes cfg log people opts).filter
          (fun n => n.type == "person") = [] := by
        rw [List.filter_eq_nil_iff]
        intro node hnode
        have hg' : node ∈ (bipTopGroups cfg people opts).map
            (mkBipGroupNode cfg log (filteredPeopleFor people opts)
              opts.connectionType (bipGroupColorMap cfg people opts)) := hnode
        rcases List.mem_map.1 hg' with ⟨g, -, rfl⟩
        exact (by decide : ¬(("group" : String) == "person") = true)
      rw [h1, h2, List.append_nil]
    have hnodes : (generateNetworkBip cfg log people opts).nodes =
        bipFinalPeopleNodes cfg log people opts ++
          bipGroupNodes cfg log people opts := rfl
    rw [hnodes, hB]
    have hA : (bipPeopleNodes cfg log people opts).length =
        (filteredPeopleFor people opts).length := by
      show ((filteredPeopleFor people opts).map _).length = _
      rw [List.length_map]
    show (bipPeopleNodes cfg log people opts).length -
        (bipFinalPeopleNodes cfg log people opts).length = _
    rw [hA]

/-- Concrete entity with only a location, for the C5 witness. -/
def locPerson (i : Nat) (city : String) : Person :=
  { id := i, name := "L" ++ toString i, firstName := none, education := [],
    companies := [], skills := [],
    location := some ⟨some city, some (city ++ "c"), some (city ++ " full")⟩ }

/-- Population for the C5 witness: three people in the featured city "Y",
two in the unfeatured city "X" (pairwise-connected to each other, hence
retained, but bipartite-isolated with topN = 1). -/
def peopleC5 : List Person :=
  [locPerson 1 "Y", locPerson 2 "Y", locPerson 3 "Y", locPerson 4 "X",
   locPerson 5 "X"]

/-- Options for the C5 witness (threshold written as `mkRat` so the pairwise
scan evaluates by kernel reduction). -/
def optsC5 : NetworkOptions :=
  { connectionType := .location, threshold := mkRat 1 10, maxNodes := 75,
    includeIsolated := false, topN := 1 }

/-- C5 witness: entity 4 lives in the unfeatured city "X" — retained by the
pairwise filter yet bipartite-isolated — and the exclusion properties hold
for it on the concrete population. -/
theorem claim5_witness :
    (optsC5.includeIsolated = false ∧
      ((filteredPeopleFor peopleC5 optsC5).map Person.id).Nodup ∧
      locPerson 4 "X" ∈ filteredPeopleFor peopleC5 optsC5 ∧
      (personItems optsC5.connectionType (locPerson 4 "X")).filter
        (fun item =>
          decide (item ∈ (bipTopGroups defaults15 peopleC5 optsC5).map
            Prod.fst)) = []) ∧
    ((∀ node ∈ (generateNetworkBip defaults15 (fun _ => 0) peopleC5
          optsC5).nodes, node.id ≠ NodeId.person (locPerson 4 "X").id)
    ∧ (∀ l ∈ (generateNetworkBip defaults15 (fun _ => 0) peopleC5
          optsC5).links, l.source ≠ (locPerson 4 "X").id)
    ∧ (generateNetworkBip defaults15 (fun _ => 0) peopleC5
          optsC5).metadata.isolatedPeople =
        (filteredPeopleFor peopleC5 optsC5).length -
          ((generateNetworkBip defaults15 (fun _ => 0) peopleC5
            optsC5).nodes.filter (fun n => n.type == "person")).length) :=
  ⟨⟨rfl, by decide, by decide, by decide⟩,
    claim5_isolated_excluded defaults15 (fun _ => 0) peopleC5 optsC5 rfl
      (by decide) (locPerson 4 "X") (by decide) (by decide)⟩

theorem foldl_preserves {P : β → Prop} (step : β → α → β)
    (h : ∀ b a, P b → P (step b a)) :
    ∀ (l : List α) (b : β), P b → P (l.foldl step b) := by
  intro l
  induction l with
  | nil => exact fun b hb => hb
  | cons x xs ih => exact fun b hb => ih (step b x) (h b x hb)

theorem mem_dedupFirst_go (l acc : List Nat) (x : Nat) :
    (x ∈ l.foldl (fun acc y => if y ∈ acc then acc else acc ++ [y]) acc) ↔
      x ∈ acc ∨ x ∈ l := by
  induction l generalizing acc with
  | nil => simp
  | cons y ys ih =>
    rw [List.foldl_cons, ih]
    by_cases hy : y ∈ acc
    · rw [if_pos hy]
      simp only [List.mem_cons]
      constructor
      · rintro (h | h)
        · exact Or.inl h
        · exact Or.inr (Or.inr h)
      · rintro (h | rfl | h)
        · exact Or.inl h
        · exact Or.inl hy
        · exact Or.inr h
    · rw [if_neg hy]
      simp only [List.mem_append, List.mem_singleton, List.mem_cons]
      tauto

theorem dedupFirst_go_nodup (l acc : List Nat) (h : acc.Nodup) :
    (l.foldl (fun acc y => if y ∈ acc then acc else acc ++ [y]) acc).Nodup := by
  refine foldl_preserves _ ?_ l acc h
  intro b a hb
  by_cases ha : a ∈ b
  · simpa [ha]
  · rw [if_neg ha]
    refine List.Nodup.append hb (List.nodup_singleton a) ?_
    intro z hz hz1
    rw [List.mem_singleton] at hz1
    exact ha (hz1 ▸ hz)

theorem dedupFirst_nodup (l : List Nat) : (dedupFirst l).Nodup :=
  dedupFirst_go_nodup l [] List.nodup_nil

theorem mem_dedupFirst (l : List Nat) (x : Nat) :
    x ∈ dedupFirst l ↔ x ∈ l := by
  rw [dedupFirst, mem_dedupFirst_go]
  simp

theorem dedupFirst_length (l : List Nat) :
    (dedupFirst l).length = l.toFinset.card := by
  have h1 : (dedupFirst l).toFinset = l.toFinset := by
    ext x
    simp [mem_dedupFirst]
  rw [← h1, List.toFinset_card_of_nodup (dedupFirst_nodup l)]

theorem keys_legendBump (k lbl c : String) (pid : Nat)
    (m : List LegendEntry) :
    (legendBump k lbl c pid m).map LegendEntry.key =
      if k ∈ m.map LegendEntry.key then m.map LegendEntry.key
      else m.map LegendEntry.key ++ [k] := by
  induction m with
  | nil => simp [legendBump]
  | cons e rest ih =>
    by_cases h : e.key = k
    · rw [legendBump, if_pos h]
      simp [h]
    · rw [legendBump, if_neg h]
      simp only [List.map_cons, ih]
      by_cases hm : k ∈ rest.map LegendEntry.key
      · simp [hm, Ne.symm h]
      · simp [hm, Ne.symm h]

theorem legendBump_keys_nodup (k lbl c : String) (pid : Nat)
    (m : List LegendEntry) (h : (m.map LegendEntry.key).Nodup) :
    ((legendBump k lbl c pid m).map LegendEntry.key).Nodup := by
  rw [keys_legendBump]
  by_cases hm : k ∈ m.map LegendEntry.key
  · simpa [hm]
  · rw [if_neg hm]
    refine List.Nodup.append h (List.nodup_singleton k) ?_
    intro z hz hz1
    rw [List.mem_singleton] at hz1
    exact hm (hz1 ▸ hz)

theorem legendBump_people_nodup (k lbl c : String) (pid : Nat)
    (m : List LegendEntry) (h : ∀ e ∈ m, e.people.Nodup) :
    ∀ e ∈ legendBump k lbl c pid m, e.people.Nodup := by
  induction m with
  | nil =>
    intro e he
    rw [legendBump] at he
    rcases List.mem_singleton.1 he with rfl
    exact List.nodup_singleton pid
  | cons e0 rest ih =>
    intro e he
    by_cases hk : e0.key = k
    · rw [legendBump, if_pos hk] at he
      rcases List.mem_cons.1 he with rfl | hrest
      · by_cases hp : pid ∈ e0.people
        · simpa [hp] using h e0 (List.mem_cons_self e0 rest)
        · simp only [hp, if_neg, ite_false]
          refine List.Nodup.append (h e0 (List.mem_cons_self e0 rest))
            (List.nodup_singleton pid) ?_
          intro z hz hz1
          rw [List.mem_singleton] at hz1
          exact hp (hz1 ▸ hz)
      · exact h e (List.mem_cons_of_mem e0 hrest)
    · rw [legendBump, if_neg hk] at he
      rcases List.mem_cons.1 he with rfl | hrest
      · exact h e (List.mem_cons_self e rest)
      · exact ih (fun e' he' => h e' (List.mem_cons_of_mem e0 he')) e hrest

/-- Invariant of the legend accumulator: distinct keys and per-entry
deduplicated people lists. -/
def LegendInv (m : List LegendEntry) : Prop :=
  (m.map LegendEntry.key).Nodup ∧ ∀ e ∈ m, e.people.Nodup

theorem legendBump_inv (k lbl c : String) (pid : Nat) (m : List LegendEntry)
    (h : LegendInv m) : LegendInv (legendBump k lbl c pid m) :=
  ⟨legendBump_keys_nodup k lbl c pid m h.1,
    legendBump_people_nodup k lbl c pid m h.2⟩

theorem legendAddPerson_inv (cfg : Defaults) (t : ConnType)
    (cachedTop : List (String × Nat)) (groupColors : List (String × String))
    (m : List LegendEntry) (person : Person) (h : LegendInv m) :
    LegendInv (legendAddPerson cfg t cachedTop groupColors m person) := by
  rw [legendAddPerson]
  split
  · exact foldl_preserves _ (fun b a hb => legendBump_inv _ _ _ _ b hb) _ m h
  · exact legendBump_inv _ _ _ _ m h

theorem legendEntries_inv (cfg : Defaults) (t : ConnType)
    (cachedTop : List (String × Nat)) (groupColors : List (String × String))
    (people : List Person) :
    LegendInv (people.foldl (legendAddPerson cfg t cachedTop groupColors) []) :=
  foldl_preserves _
    (fun b a hb => legendAddPerson_inv cfg t cachedTop groupColors b a hb)
    people [] ⟨List.nodup_nil, by simp⟩

/-- C6: in pairwise mode, whenever some legend entry carries the overflow
color, the returned legend consists (up to the final sort's reordering) of
the non-overflow entries with their naive per-group counts untouched, plus
exactly one synthetic "Other <Dimension> (k)" row whose k counts the
collapsed gray entries — whose keys are pairwise distinct — and whose count
is the number of distinct entity ids across those gray entries, not the sum
of their counts. -/
theorem claim6_legend_overflow_collapse (cfg : Defaults)
    (people : List Person) (groupColors : List (String × String))
    (t : ConnType) (cachedTop : List (String × Nat))
    (hgray : (people.foldl (legendAddPerson cfg t cachedTop groupColors)
        []).filter (fun g => decide (g.color = cfg.otherColor)) ≠ []) :
    ((generateLegendData cfg people groupColors t cachedTop).filter
        (fun g => decide (g.color ≠ cfg.otherColor))).Perm
      ((people.foldl (legendAddPerson cfg t cachedTop groupColors) []).filter
        (fun g => decide (g.color ≠ cfg.otherColor)))
  ∧ (∃ oth,
      (generateLegendData cfg people groupColors t cachedTop).filter
        (fun g => decide (g.color = cfg.otherColor)) = [oth] ∧
      oth.key = "others" ∧
      oth.label = legendOtherLabel t
        (((people.foldl (legendAddPerson cfg t cachedTop groupColors)
          []).filter (fun g => decide (g.color = cfg.otherColor))).length) ∧
      oth.count = (((people.foldl (legendAddPerson cfg t cachedTop
          groupColors) []).filter
            (fun g => decide (g.color = cfg.otherColor))).flatMap
          LegendEntry.people).toFinset.card)
  ∧ LegendInv (people.foldl (legendAddPerson cfg t cachedTop groupColors) []) := by
  have hsp : (stableSort legendKeep
      (people.foldl (legendAddPerson cfg t cachedTop groupColors) [])).Perm
      (people.foldl (legendAddPerson cfg t cachedTop groupColors) []) :=
    stableSort_perm _ _
  have hgsp : ((stableSort legendKeep
      (people.foldl (legendAddPerson cfg t cachedTop groupColors) [])).filter
        (fun g => decide (g.color = cfg.otherColor))).Perm
      ((people.foldl (legendAddPerson cfg t cachedTop groupColors) []).filter
        (fun g => decide (g.color = cfg.otherColor))) := hsp.filter _
  have hcsp : ((stableSort legendKeep
      (people.foldl (legendAddPerson cfg t cachedTop groupColors) [])).filter
        (fun g => decide (g.color ≠ cfg.otherColor))).Perm
      ((people.foldl (legendAddPerson cfg t cachedTop groupColors) []).filter
        (fun g => decide (g.color ≠ cfg.otherColor))) := hsp.filter _
  have hpos : ((stableSort legendKeep
      (people.foldl (legendAddPerson cfg t cachedTop groupColors) [])).filter
        (fun g => decide (g.color = cfg.otherColor))).length > 0 := by
    rw [hgsp.length_eq]
    exact List.length_pos.2 hgray
  have hout : generateLegendData cfg people groupColors t cachedTop =
      stableSort legendKeep
        (((stableSort legendKeep
            (people.foldl (legendAddPerson cfg t cachedTop groupColors)
              [])).filter (fun g => decide (g.color ≠ cfg.otherColor))) ++
          [⟨"others",
            legendOtherLabel t ((stableSort legendKeep
              (people.foldl (legendAddPerson cfg t cachedTop groupColors)
                [])).filter
                  (fun g => decide (g.color = cfg.otherColor))).length,
            cfg.otherColor,
            (dedupFirst (((stableSort legendKeep
              (people.foldl (legendAddPerson cfg t cachedTop groupColors)
                [])).filter
                  (fun g => decide (g.color = cfg.otherColor))).flatMap
              LegendEntry.people)).length,
            dedupFirst (((stableSort legendKeep
              (people.foldl (legendAddPerson cfg t cachedTop groupColors)
                [])).filter
                  (fun g => decide (g.color = cfg.otherColor))).flatMap
              LegendEntry.people), none⟩]) := by
    show (if ((stableSort legendKeep
        (people.foldl (legendAddPerson cfg t cachedTop groupColors)
          [])).filter (fun g => decide (g.color = cfg.otherColor))).length > 0
      then _ else _) = _
    rw [if_pos hpos]
  have houtp := hout ▸ (stableSort_perm legendKeep _)
  refine ⟨?_, ?_, legendEntries_inv cfg t cachedTop groupColors people⟩
  · refine ((houtp.filter _).trans ?_)
    rw [List.filter_append]
    have h1 : ((stableSort legendKeep
        (people.foldl (legendAddPerson cfg t cachedTop groupColors)
          [])).filter (fun g => decide (g.color ≠ cfg.otherColor))).filter
          (fun g => decide (g.color ≠ cfg.otherColor)) =
        (stableSort legendKeep
          (people.foldl (legendAddPerson cfg t cachedTop groupColors)
            [])).filter (fun g => decide (g.color ≠ cfg.otherColor)) := by
      rw [List.filter_eq_self]
      intro g hg
      exact (List.mem_filter.1 hg).2
    rw [h1]
    have h2 : ∀ lbl cnt ppl, (([⟨"others", lbl, cfg.otherColor, cnt, ppl,
        none⟩] : List LegendEntry).filter
          (fun g => decide (g.color ≠ cfg.otherColor))) = [] := by
      intro lbl cnt ppl
      simp
    rw [h2, List.append_nil]
    exact hcsp
  · refine ⟨⟨"others",
        legendOtherLabel t ((stableSort legendKeep
          (people.foldl (legendAddPerson cfg t cachedTop groupColors)
            [])).filter (fun g => decide (g.color = cfg.otherColor))).length,
        cfg.otherColor,
        (dedupFirst (((stableSort legendKeep
          (people.foldl (legendAddPerson cfg t cachedTop groupColors)
            [])).filter (fun g => decide (g.color = cfg.otherColor))).flatMap
          LegendEntry.people)).length,
        dedupFirst (((stableSort legendKeep
          (people.foldl (legendAddPerson cfg t cachedTop groupColors)
            [])).filter (fun g => decide (g.color = cfg.otherColor))).flatMap
          LegendEntry.people), none⟩, ?_, rfl, ?_, ?_⟩
    · have hperm1 := houtp.filter (fun g => decide (g.color = cfg.otherColor))
      rw [List.filter_append] at hperm1
      have h1 : ((stableSort legendKeep
          (people.foldl (legendAddPerson cfg t cachedTop groupColors)
            [])).filter (fun g => decide (g.color ≠ cfg.otherColor))).filter
            (fun g => decide (g.color = cfg.otherColor)) = [] := by
        rw [List.filter_eq_nil_iff]
        intro g hg
        have := (List.mem_filter.1 hg).2
        simp only [decide_eq_true_eq] at this ⊢
        exact this
      rw [h1, List.nil_append] at hperm1
      have h2 : (([⟨"others",
          legendOtherLabel t ((stableSort legendKeep
            (people.foldl (legendAddPerson cfg t cachedTop groupColors)
              [])).filter
                (fun g => decide (g.color = cfg.otherColor))).length,
          cfg.otherColor,
          (dedupFirst (((stableSort legendKeep
            (people.foldl (legendAddPerson cfg t cachedTop groupColors)
              [])).filter
                (fun g => decide (g.color = cfg.otherColor))).flatMap
            LegendEntry.people)).length,
          dedupFirst (((stableSort legendKeep
            (people.foldl (legendAddPerson cfg t cachedTop groupColors)
              [])).filter
                (fun g => decide (g.color = cfg.otherColor))).flatMap
            LegendEntry.people), none⟩] : List LegendEntry).filter
          (fun g => decide (g.color = cfg.otherColor))) =
          [⟨"others",
          legendOtherLabel t ((stableSort legendKeep
            (people.foldl (legendAddPerson cfg t cachedTop groupColors)
              [])).filter
                (fun g => decide (g.color = cfg.otherColor))).length,
          cfg.otherColor,
          (dedupFirst (((stableSort legendKeep
            (people.foldl (legendAddPerson cfg t cachedTop groupColors)
              [])).filter
                (fun g => decide (g.color = cfg.otherColor))).flatMap
            LegendEntry.people)).length,
          dedupFirst (((stableSort legendKeep
            (people.foldl (legendAddPerson cfg t cachedTop groupColors)
              [])).filter
                (fun g => decide (g.color = cfg.otherColor))).flatMap
            LegendEntry.people), none⟩] := by
        simp
      rw [h2] at hperm1
      exact List.perm_singleton.1 hperm1
    · show legendOtherLabel t _ = legendOtherLabel t _
      rw [hgsp.length_eq]
    · show (dedupFirst _).length = _
      rw [dedupFirst_length]
      congr 1
      ext x
      simp only [List.mem_toFinset, List.mem_flatMap]
      constructor
      · rintro ⟨e, he, hx⟩
        exact ⟨e, hgsp.mem_iff.1 he, hx⟩
      · rintro ⟨e, he, hx⟩
        exact ⟨e, hgsp.mem_iff.2 he, hx⟩

/-- Population for the C6 witness: two people in the featured school "A",
one each in the unfeatured schools "B" and "C" (the latter two fall into the
overflow bucket). -/
def peopleC6 : List Person :=
  [schoolPerson 1 ["A"], schoolPerson 2 ["A"], schoolPerson 3 ["B"],
   schoolPerson 4 ["C"]]

/-- Witness for C6: on a four-person population with one featured school the
two overflow entries exist, and the legend-collapse properties hold there. -/
theorem claim6_witness :
    ((peopleC6.foldl (legendAddPerson defaults12 ConnType.education
        [("A", 2)] [("A", "#EF4444")]) []).filter
      (fun g => decide (g.color = defaults12.otherColor)) ≠ [])
  ∧ (((generateLegendData defaults12 peopleC6 [("A", "#EF4444")]
        ConnType.education [("A", 2)]).filter
        (fun g => decide (g.color ≠ defaults12.otherColor))).Perm
      ((peopleC6.foldl (legendAddPerson defaults12 ConnType.education
          [("A", 2)] [("A", "#EF4444")]) []).filter
        (fun g => decide (g.color ≠ defaults12.otherColor)))
    ∧ (∃ oth,
        (generateLegendData defaults12 peopleC6 [("A", "#EF4444")]
          ConnType.education [("A", 2)]).filter
          (fun g => decide (g.color = defaults12.otherColor)) = [oth] ∧
        oth.key = "others" ∧
        oth.label = legendOtherLabel ConnType.education
          (((peopleC6.foldl (legendAddPerson defaults12 ConnType.education
            [("A", 2)] [("A", "#EF4444")]) []).filter
            (fun g => decide (g.color = defaults12.otherColor))).length) ∧
        oth.count = (((peopleC6.foldl (legendAddPerson defaults12
            ConnType.education [("A", 2)] [("A", "#EF4444")]) []).filter
              (fun g => decide (g.color = defaults12.otherColor))).flatMap
            LegendEntry.people).toFinset.card)
    ∧ LegendInv (peopleC6.foldl (legendAddPerson defaults12
        ConnType.education [("A", 2)] [("A", "#EF4444")]) [])) :=
  ⟨by decide,
   claim6_legend_overflow_collapse defaults12 peopleC6 [("A", "#EF4444")]
     ConnType.education [("A", 2)] (by decide)⟩

end NetVis
